import Mathlib

/-!
Verification development for the `oewn_rs` WordNet indexing and query engine.

The Rust sources are shallowly embedded:
* `models.rs`  → the record model (`PartOfSpeech`, `SenseRelType`, `SynsetRelType`,
  `Sense`, `Synset`, `LexicalEntry`, `Lexicon`, `LexicalResource`, …);
* `db.rs`      → the relational tables become lists of row records inside `DB`;
  `populate_database` becomes an `Except`-threaded fold over the resource whose
  three passes mirror the three insertion passes of the source (error propagation
  via `?` is modelled by matching on `.error`, the surrounding SQLite transaction
  by `populate_database_result`, which restores the pre-state on any error);
* `lib.rs`     → the query methods (`lookup_entries`, `get_synset`, `get_sense`,
  `get_senses_for_synset`, `get_related_senses`, `get_related_synsets`,
  `get_random_entry`, …) become pure functions over `DB`, with the SQL
  `WHERE` clauses as list filters, `JOIN`s as `find?`/`filter`, and the
  `HashMap`-based row grouping as deduplication by key (`dedupByKey`), which
  keeps the first row per key exactly as `HashMap::entry(..).or_insert_with` does.

Ordering of multi-valued results is not modelled (the source materialises them
from `HashMap`/`HashSet` iteration, which has no specified order); all theorems
below are stated in terms of membership, as the specification's properties are.
The SQLite `RANDOM()` source of `get_random_entry` is modelled as an oracle
argument `pick : Nat` choosing an index into the entry table.
-/

namespace OewnRs

/-- `PartOfSpeech` from `models.rs`. -/
inductive PartOfSpeech
  | N | V | A | R | S | C | P | X | U
  deriving DecidableEq, Repr

/-- `SenseRelType` from `models.rs` (the `Other` constructor carries the
`#[serde(other)]` attribute in the source: it is the designated catch-all). -/
inductive SenseRelType
  | Antonym | Also | Participle | Pertainym | Derivation
  | DomainTopic | DomainMemberTopic | DomainRegion | DomainMemberRegion
  | Exemplifies | IsExemplifiedBy
  | Other
  deriving DecidableEq, Repr

/-- `SynsetRelType` from `models.rs` (the `Unknown` constructor carries the
`#[serde(other)]` attribute in the source: it is the designated catch-all). -/
inductive SynsetRelType
  | Hypernym | Hyponym | InstanceHypernym | InstanceHyponym
  | MeroMember | MeroPart | MeroSubstance
  | HoloMember | HoloPart | HoloSubstance
  | Entails | Causes | Similar | Attribute
  | DomainRegion | DomainTopic | HasDomainRegion | HasDomainTopic
  | Exemplifies | IsExemplifiedBy
  | Agent | Also | AntoConverse | AntoGradable | AntoSimple | Antonym
  | Augmentative | BeInState | ClassifiedBy | Classifies
  | CoAgentInstrument | CoAgentPatient | CoAgentResult
  | CoInstrumentAgent | CoInstrumentPatient | CoInstrumentResult
  | CoPatientAgent | CoPatientInstrument | CoResultAgent | CoResultInstrument
  | CoRole | Constitutive | Derivation | Diminutive | Direction | Domain
  | EqSynonym | Feminine | HasAugmentative | HasDiminutive | HasDomain
  | HasFeminine | HasMasculine | HasYoung | HoloLocation | HoloPortion
  | Holonym | InManner | Instrument | Involved | InvolvedAgent
  | InvolvedDirection | InvolvedInstrument | InvolvedLocation | InvolvedPatient
  | InvolvedResult | InvolvedSourceDirection | InvolvedTargetDirection
  | IrSynonym | IsCausedBy | IsEntailedBy | IsSubeventOf | Location | MannerOf
  | Masculine | MeroLocation | MeroPortion | Meronym | Other | Participle
  | Patient | Pertainym | RestrictedBy | Restricts | Result | Role
  | SecondaryAspectIp | SecondaryAspectPi | SimpleAspectIp | SimpleAspectPi
  | SourceDirection | StateOf | Subevent | TargetDirection | Young
  | Unknown
  deriving DecidableEq, Repr

/-- `SenseRelation` from `models.rs`. -/
structure SenseRelation where
  rel_type : SenseRelType
  target : String
  deriving DecidableEq, Repr

/-- `Sense` from `models.rs`. -/
structure Sense where
  id : String
  synset : String
  sense_relations : List SenseRelation
  deriving DecidableEq, Repr

/-- `Pronunciation` from `models.rs`.  The source field `notation` is a Lean
keyword, so it is embedded as `nota`. -/
structure Pronunciation where
  variety : String
  nota : Option String
  phonemic : Bool
  audio : Option String
  text : String
  deriving DecidableEq, Repr

/-- `Lemma` from `models.rs`. -/
structure Lemma where
  written_form : String
  part_of_speech : PartOfSpeech
  deriving DecidableEq, Repr

/-- `LexicalEntry` from `models.rs`.  The source field `lemma` is a Lean
keyword, so it is embedded as `lem`. -/
structure LexicalEntry where
  id : String
  lem : Lemma
  pronunciations : List Pronunciation
  senses : List Sense
  deriving DecidableEq, Repr

/-- `Definition` from `models.rs`. -/
structure Definition where
  dc_source : Option String
  text : String
  deriving DecidableEq, Repr

/-- `ILIDefinition` from `models.rs`. -/
structure ILIDefinition where
  dc_source : Option String
  text : String
  deriving DecidableEq, Repr

/-- `SynsetRelation` from `models.rs`. -/
structure SynsetRelation where
  rel_type : SynsetRelType
  target : String
  deriving DecidableEq, Repr

/-- `Example` record from `models.rs`. -/
structure ExampleText where
  dc_source : Option String
  text : String
  deriving DecidableEq, Repr

/-- `Synset` from `models.rs`: `members` is the raw whitespace-separated string
from the `@members` XML attribute. -/
structure Synset where
  id : String
  ili : Option String
  part_of_speech : PartOfSpeech
  members : String
  definitions : List Definition
  ili_definition : Option ILIDefinition
  synset_relations : List SynsetRelation
  examples : List ExampleText
  deriving DecidableEq, Repr

/-- `Lexicon` from `models.rs`.  The metadata-only fields `confidence_score`
(an `Option<f32>`; floating point is not embeddable and the field is only
copied into the lexicons table, never queried) and `requires` (never stored)
are omitted. -/
structure Lexicon where
  id : String
  label : String
  language : String
  email : String
  license : String
  version : String
  url : Option String
  citation : Option String
  logo : Option String
  status : Option String
  dc_publisher : Option String
  dc_contributor : Option String
  lexical_entries : List LexicalEntry
  synsets : List Synset
  deriving DecidableEq, Repr

/-- `LexicalResource` from `models.rs`. -/
structure LexicalResource where
  lexicons : List Lexicon
  deriving DecidableEq, Repr

/-- `OewnError` from `error.rs` (the variants reachable from the embedded code;
`DbError` carries the SQLite message text). -/
inductive OewnError
  | Io (s : String)
  | DataDirNotFound
  | DataFileNotFound (s : String)
  | ParseError (s : String)
  | SynsetNotFound (s : String)
  | LexicalEntryNotFound (s : String)
  | NotLoaded
  | InvalidArgument (s : String)
  | Internal (s : String)
  | DbError (s : String)
  deriving DecidableEq, Repr

deriving instance DecidableEq for Except

/-- Rust's `str::to_lowercase`, modelled character-wise (the embedded corpus
strings are ASCII, where `Char.toLower` agrees with Rust).  Written over the
character list (the semantics of `String.map`) so the kernel can evaluate it. -/
def rustLower (s : String) : String := ⟨s.data.map Char.toLower⟩

/-- `part_of_speech_to_string` from `db.rs`. -/
def part_of_speech_to_string : PartOfSpeech → String
  | .N => "n" | .V => "v" | .A => "a" | .R => "r" | .S => "s"
  | .C => "c" | .P => "p" | .X => "x" | .U => "u"

/-- `string_to_part_of_speech` from `db.rs`. -/
def string_to_part_of_speech (s : String) : Except OewnError PartOfSpeech :=
  if s = "n" then .ok .N
  else if s = "v" then .ok .V
  else if s = "a" then .ok .A
  else if s = "r" then .ok .R
  else if s = "s" then .ok .S
  else if s = "c" then .ok .C
  else if s = "p" then .ok .P
  else if s = "x" then .ok .X
  else if s = "u" then .ok .U
  else .error (.ParseError ("Invalid PartOfSpeech string in DB: " ++ s))

/-- `sense_rel_type_to_string` from `db.rs`: the source lowercases the Rust
`Debug` representation of the variant, so multi-word variants lose their
underscores (e.g. `DomainTopic ↦ "domaintopic"`). -/
def sense_rel_type_to_string : SenseRelType → String
  | .Antonym => "antonym"
  | .Also => "also"
  | .Participle => "participle"
  | .Pertainym => "pertainym"
  | .Derivation => "derivation"
  | .DomainTopic => "domaintopic"
  | .DomainMemberTopic => "domainmembertopic"
  | .DomainRegion => "domainregion"
  | .DomainMemberRegion => "domainmemberregion"
  | .Exemplifies => "exemplifies"
  | .IsExemplifiedBy => "isexemplifiedby"
  | .Other => "other"

/-- The underlying total decode of `string_to_sense_rel_type` from `db.rs`
(every arm of the source match returns `Ok`, with `Other` as catch-all). -/
def senseRelOfString (s : String) : SenseRelType :=
  if s = "antonym" then .Antonym
  else if s = "also" then .Also
  else if s = "participle" then .Participle
  else if s = "pertainym" then .Pertainym
  else if s = "derivation" then .Derivation
  else if s = "domain_topic" then .DomainTopic
  else if s = "domain_member_topic" then .DomainMemberTopic
  else if s = "domain_region" then .DomainRegion
  else if s = "domain_member_region" then .DomainMemberRegion
  else if s = "exemplifies" then .Exemplifies
  else if s = "is_exemplified_by" then .IsExemplifiedBy
  else .Other

/-- `string_to_sense_rel_type` from `db.rs`. -/
def string_to_sense_rel_type (s : String) : Except OewnError SenseRelType :=
  .ok (senseRelOfString s)

/-- `sense_rel_type_from_xml`: deserialization of the `relType` XML attribute
into `SenseRelType`, per the `#[serde(rename_all = "snake_case")]` and
`#[serde(other)]` attributes in `models.rs` (unrecognized strings become
`Other`, discarding the original text). -/
def sense_rel_type_from_xml (s : String) : SenseRelType :=
  if s = "antonym" then .Antonym
  else if s = "also" then .Also
  else if s = "participle" then .Participle
  else if s = "pertainym" then .Pertainym
  else if s = "derivation" then .Derivation
  else if s = "domain_topic" then .DomainTopic
  else if s = "domain_member_topic" then .DomainMemberTopic
  else if s = "domain_region" then .DomainRegion
  else if s = "domain_member_region" then .DomainMemberRegion
  else if s = "exemplifies" then .Exemplifies
  else if s = "is_exemplified_by" then .IsExemplifiedBy
  else .Other

/-- `synset_rel_type_to_string` from `db.rs`: lowercased `Debug` representation
of the variant (multi-word variants lose their underscores). -/
def synset_rel_type_to_string : SynsetRelType → String
  | .Hypernym => "hypernym"
  | .Hyponym => "hyponym"
  | .InstanceHypernym => "instancehypernym"
  | .InstanceHyponym => "instancehyponym"
  | .MeroMember => "meromember"
  | .MeroPart => "meropart"
  | .MeroSubstance => "merosubstance"
  | .HoloMember => "holomember"
  | .HoloPart => "holopart"
  | .HoloSubstance => "holosubstance"
  | .Entails => "entails"
  | .Causes => "causes"
  | .Similar => "similar"
  | .Attribute => "attribute"
  | .DomainRegion => "domainregion"
  | .DomainTopic => "domaintopic"
  | .HasDomainRegion => "hasdomainregion"
  | .HasDomainTopic => "hasdomaintopic"
  | .Exemplifies => "exemplifies"
  | .IsExemplifiedBy => "isexemplifiedby"
  | .Agent => "agent"
  | .Also => "also"
  | .AntoConverse => "antoconverse"
  | .AntoGradable => "antogradable"
  | .AntoSimple => "antosimple"
  | .Antonym => "antonym"
  | .Augmentative => "augmentative"
  | .BeInState => "beinstate"
  | .ClassifiedBy => "classifiedby"
  | .Classifies => "classifies"
  | .CoAgentInstrument => "coagentinstrument"
  | .CoAgentPatient => "coagentpatient"
  | .CoAgentResult => "coagentresult"
  | .CoInstrumentAgent => "coinstrumentagent"
  | .CoInstrumentPatient => "coinstrumentpatient"
  | .CoInstrumentResult => "coinstrumentresult"
  | .CoPatientAgent => "copatientagent"
  | .CoPatientInstrument => "copatientinstrument"
  | .CoResultAgent => "coresultagent"
  | .CoResultInstrument => "coresultinstrument"
  | .CoRole => "corole"
  | .Constitutive => "constitutive"
  | .Derivation => "derivation"
  | .Diminutive => "diminutive"
  | .Direction => "direction"
  | .Domain => "domain"
  | .EqSynonym => "eqsynonym"
  | .Feminine => "feminine"
  | .HasAugmentative => "hasaugmentative"
  | .HasDiminutive => "hasdiminutive"
  | .HasDomain => "hasdomain"
  | .HasFeminine => "hasfeminine"
  | .HasMasculine => "hasmasculine"
  | .HasYoung => "hasyoung"
  | .HoloLocation => "hololocation"
  | .HoloPortion => "holoportion"
  | .Holonym => "holonym"
  | .InManner => "inmanner"
  | .Instrument => "instrument"
  | .Involved => "involved"
  | .InvolvedAgent => "involvedagent"
  | .InvolvedDirection => "involveddirection"
  | .InvolvedInstrument => "involvedinstrument"
  | .InvolvedLocation => "involvedlocation"
  | .InvolvedPatient => "involvedpatient"
  | .InvolvedResult => "involvedresult"
  | .InvolvedSourceDirection => "involvedsourcedirection"
  | .InvolvedTargetDirection => "involvedtargetdirection"
  | .IrSynonym => "irsynonym"
  | .IsCausedBy => "iscausedby"
  | .IsEntailedBy => "isentailedby"
  | .IsSubeventOf => "issubeventof"
  | .Location => "location"
  | .MannerOf => "mannerof"
  | .Masculine => "masculine"
  | .MeroLocation => "merolocation"
  | .MeroPortion => "meroportion"
  | .Meronym => "meronym"
  | .Other => "other"
  | .Participle => "participle"
  | .Patient => "patient"
  | .Pertainym => "pertainym"
  | .RestrictedBy => "restrictedby"
  | .Restricts => "restricts"
  | .Result => "result"
  | .Role => "role"
  | .SecondaryAspectIp => "secondaryaspectip"
  | .SecondaryAspectPi => "secondaryaspectpi"
  | .SimpleAspectIp => "simpleaspectip"
  | .SimpleAspectPi => "simpleaspectpi"
  | .SourceDirection => "sourcedirection"
  | .StateOf => "stateof"
  | .Subevent => "subevent"
  | .TargetDirection => "targetdirection"
  | .Young => "young"
  | .Unknown => "unknown"

/-- The underlying total decode of `string_to_synset_rel_type` from `db.rs`
(every arm of the source match returns `Ok`, with `Unknown` as catch-all). -/
def synsetRelOfString (s : String) : SynsetRelType :=
  if s = "hypernym" then .Hypernym
  else if s = "hyponym" then .Hyponym
  else if s = "instance_hypernym" then .InstanceHypernym
  else if s = "instance_hyponym" then .InstanceHyponym
  else if s = "mero_member" then .MeroMember
  else if s = "mero_part" then .MeroPart
  else if s = "mero_substance" then .MeroSubstance
  else if s = "holo_member" then .HoloMember
  else if s = "holo_part" then .HoloPart
  else if s = "holo_substance" then .HoloSubstance
  else if s = "entails" then .Entails
  else if s = "causes" then .Causes
  else if s = "similar" then .Similar
  else if s = "attribute" then .Attribute
  else if s = "domain_region" then .DomainRegion
  else if s = "domain_topic" then .DomainTopic
  else if s = "has_domain_region" then .HasDomainRegion
  else if s = "has_domain_topic" then .HasDomainTopic
  else if s = "exemplifies" then .Exemplifies
  else if s = "is_exemplified_by" then .IsExemplifiedBy
  else .Unknown

/-- `string_to_synset_rel_type` from `db.rs`. -/
def string_to_synset_rel_type (s : String) : Except OewnError SynsetRelType :=
  .ok (synsetRelOfString s)

/-! ## The relational schema of `db.rs` as lists of rows -/

/-- One row of the `lexicons` table (`CREATE_LEXICONS_TABLE`). -/
structure LexiconRow where
  id : String
  label : String
  language : String
  email : String
  license : String
  version : String
  url : Option String
  citation : Option String
  logo : Option String
  status : Option String
  dc_publisher : Option String
  dc_contributor : Option String
  deriving DecidableEq, Repr

/-- One row of the `lexical_entries` table (`CREATE_LEXICAL_ENTRIES_TABLE`). -/
structure EntryRow where
  id : String
  lexicon_id : String
  lemma_written_form : String
  lemma_written_form_lower : String
  part_of_speech : String
  deriving DecidableEq, Repr

/-- One row of the `pronunciations` table (`CREATE_PRONUNCIATIONS_TABLE`). -/
structure PronRow where
  entry_id : String
  variety : String
  nota : Option String
  phonemic : Bool
  audio : Option String
  text : String
  deriving DecidableEq, Repr

/-- One row of the `synsets` table (`CREATE_SYNSETS_TABLE`): per the schema
comment, the XML `members` attribute is not stored — membership is implicit in
`senses.entry_id` + `senses.synset_id`. -/
structure SynsetRow where
  id : String
  lexicon_id : String
  ili : Option String
  part_of_speech : String
  deriving DecidableEq, Repr

/-- One row of the `senses` table (`CREATE_SENSES_TABLE`). -/
structure SenseRow where
  id : String
  entry_id : String
  synset_id : String
  deriving DecidableEq, Repr

/-- One row of the `definitions` table (`CREATE_DEFINITIONS_TABLE`). -/
structure DefinitionRow where
  synset_id : String
  text : String
  dc_source : Option String
  deriving DecidableEq, Repr

/-- One row of the `ili_definitions` table (`CREATE_ILI_DEFINITIONS_TABLE`). -/
structure IliDefRow where
  synset_id : String
  text : String
  dc_source : Option String
  deriving DecidableEq, Repr

/-- One row of the `examples` table (`CREATE_EXAMPLES_TABLE`). -/
structure ExampleRow where
  synset_id : String
  text : String
  dc_source : Option String
  deriving DecidableEq, Repr

/-- One row of the `sense_relations` table (`CREATE_SENSE_RELATIONS_TABLE`);
the whole row is the primary key. -/
structure SenseRelRow where
  source_sense_id : String
  target_sense_id : String
  rel_type : String
  deriving DecidableEq, Repr

/-- One row of the `synset_relations` table (`CREATE_SYNSET_RELATIONS_TABLE`);
the whole row is the primary key. -/
structure SynsetRelRow where
  source_synset_id : String
  target_synset_id : String
  rel_type : String
  deriving DecidableEq, Repr

/-- The populated relational store: all tables of `db.rs`. -/
structure DB where
  lexicons : List LexiconRow
  lexical_entries : List EntryRow
  pronunciations : List PronRow
  synsets : List SynsetRow
  senses : List SenseRow
  definitions : List DefinitionRow
  ili_definitions : List IliDefRow
  examples : List ExampleRow
  sense_relations : List SenseRelRow
  synset_relations : List SynsetRelRow
  deriving DecidableEq, Repr

/-- The freshly created store (all tables empty). -/
def emptyDB : DB := ⟨[], [], [], [], [], [], [], [], [], []⟩

/-! ## Row construction, as performed by `populate_database` in `db.rs` -/

/-- The `lexicons` row inserted for a `Lexicon`. -/
def lexiconRow (l : Lexicon) : LexiconRow :=
  { id := l.id, label := l.label, language := l.language, email := l.email,
    license := l.license, version := l.version, url := l.url,
    citation := l.citation, logo := l.logo, status := l.status,
    dc_publisher := l.dc_publisher, dc_contributor := l.dc_contributor }

/-- The `lexical_entries` row inserted for an entry: the source stores the
written form verbatim, its `to_lowercase()` image, and the part of speech as a
string. -/
def entryRow (lexicon_id : String) (e : LexicalEntry) : EntryRow :=
  { id := e.id, lexicon_id := lexicon_id,
    lemma_written_form := e.lem.written_form,
    lemma_written_form_lower := rustLower e.lem.written_form,
    part_of_speech := part_of_speech_to_string e.lem.part_of_speech }

/-- The `synsets` row inserted for a synset (no `members` column). -/
def synsetRow (lexicon_id : String) (s : Synset) : SynsetRow :=
  { id := s.id, lexicon_id := lexicon_id, ili := s.ili,
    part_of_speech := part_of_speech_to_string s.part_of_speech }

/-- The `pronunciations` row inserted for an entry's pronunciation. -/
def pronRow (entry_id : String) (p : Pronunciation) : PronRow :=
  { entry_id := entry_id, variety := p.variety, nota := p.nota,
    phonemic := p.phonemic, audio := p.audio, text := p.text }

/-- The `senses` row inserted for an entry's sense. -/
def senseRow (entry_id : String) (s : Sense) : SenseRow :=
  { id := s.id, entry_id := entry_id, synset_id := s.synset }

/-- The `definitions` row inserted for a synset's definition. -/
def defRow (synset_id : String) (d : Definition) : DefinitionRow :=
  { synset_id := synset_id, text := d.text, dc_source := d.dc_source }

/-- The `ili_definitions` row inserted for a synset's ILI definition. -/
def iliDefRow (synset_id : String) (d : ILIDefinition) : IliDefRow :=
  { synset_id := synset_id, text := d.text, dc_source := d.dc_source }

/-- The `examples` row inserted for a synset's example. -/
def exampleRow (synset_id : String) (e : ExampleText) : ExampleRow :=
  { synset_id := synset_id, text := e.text, dc_source := e.dc_source }

/-- The `sense_relations` row inserted for a sense relation (the relation kind
is stored through `sense_rel_type_to_string`). -/
def senseRelRow (source : String) (r : SenseRelation) : SenseRelRow :=
  { source_sense_id := source, target_sense_id := r.target,
    rel_type := sense_rel_type_to_string r.rel_type }

/-- The `synset_relations` row inserted for a synset relation. -/
def synsetRelRow (source : String) (r : SynsetRelation) : SynsetRelRow :=
  { source_synset_id := source, target_synset_id := r.target,
    rel_type := synset_rel_type_to_string r.rel_type }

/-! ## Single-row inserts

Plain `INSERT` fails on a primary-key conflict (modelled as a `DbError`);
`INSERT OR IGNORE` (used for the two relation tables, whose full row is the
primary key) silently keeps the existing row. -/

/-- `INSERT INTO lexicons` (primary key `id`). -/
def insert_lexicon (db : DB) (r : LexiconRow) : Except OewnError DB :=
  if db.lexicons.any (fun x => x.id == r.id) then
    .error (.DbError "UNIQUE constraint failed: lexicons.id")
  else .ok { db with lexicons := db.lexicons ++ [r] }

/-- `INSERT INTO lexical_entries` (primary key `id`). -/
def insert_entry (db : DB) (r : EntryRow) : Except OewnError DB :=
  if db.lexical_entries.any (fun x => x.id == r.id) then
    .error (.DbError "UNIQUE constraint failed: lexical_entries.id")
  else .ok { db with lexical_entries := db.lexical_entries ++ [r] }

/-- `INSERT INTO synsets` (primary key `id`). -/
def insert_synset (db : DB) (r : SynsetRow) : Except OewnError DB :=
  if db.synsets.any (fun x => x.id == r.id) then
    .error (.DbError "UNIQUE constraint failed: synsets.id")
  else .ok { db with synsets := db.synsets ++ [r] }

/-- `INSERT INTO pronunciations` (no primary key). -/
def insert_pronunciation (db : DB) (r : PronRow) : Except OewnError DB :=
  .ok { db with pronunciations := db.pronunciations ++ [r] }

/-- `INSERT INTO senses` (primary key `id`). -/
def insert_sense (db : DB) (r : SenseRow) : Except OewnError DB :=
  if db.senses.any (fun x => x.id == r.id) then
    .error (.DbError "UNIQUE constraint failed: senses.id")
  else .ok { db with senses := db.senses ++ [r] }

/-- `INSERT INTO definitions` (no primary key). -/
def insert_definition (db : DB) (r : DefinitionRow) : Except OewnError DB :=
  .ok { db with definitions := db.definitions ++ [r] }

/-- `INSERT INTO ili_definitions` (primary key `synset_id`). -/
def insert_ili_definition (db : DB) (r : IliDefRow) : Except OewnError DB :=
  if db.ili_definitions.any (fun x => x.synset_id == r.synset_id) then
    .error (.DbError "UNIQUE constraint failed: ili_definitions.synset_id")
  else .ok { db with ili_definitions := db.ili_definitions ++ [r] }

/-- `INSERT INTO examples` (no primary key). -/
def insert_example (db : DB) (r : ExampleRow) : Except OewnError DB :=
  .ok { db with examples := db.examples ++ [r] }

/-- `INSERT OR IGNORE INTO sense_relations` (the whole row is the primary
key, so a conflict means the identical row is already present). -/
def insert_sense_relation (db : DB) (r : SenseRelRow) : Except OewnError DB :=
  if r ∈ db.sense_relations then .ok db
  else .ok { db with sense_relations := db.sense_relations ++ [r] }

/-- `INSERT OR IGNORE INTO synset_relations`. -/
def insert_synset_relation (db : DB) (r : SynsetRelRow) : Except OewnError DB :=
  if r ∈ db.synset_relations then .ok db
  else .ok { db with synset_relations := db.synset_relations ++ [r] }

/-! ## `populate_database` (`db.rs`)

The source iterates with `?`-propagation inside one SQLite transaction; the
iteration is embedded as `insertAll`, an `Except`-threaded left fold. -/

/-- Sequential insertion with error propagation (the source's `for` loops with
`execute(..)?`). -/
def insertAll {α : Type} (f : DB → α → Except OewnError DB) : DB → List α → Except OewnError DB
  | db, [] => .ok db
  | db, x :: xs =>
    match f db x with
    | .error e => .error e
    | .ok db1 => insertAll f db1 xs

/-- Pass 1 body for one lexicon: the lexicon row, then its entry rows, then its
synset rows. -/
def pass1_lexicon (db : DB) (l : Lexicon) : Except OewnError DB :=
  match insert_lexicon db (lexiconRow l) with
  | .error e => .error e
  | .ok db1 =>
    match insertAll (fun d e => insert_entry d (entryRow l.id e)) db1 l.lexical_entries with
    | .error e => .error e
    | .ok db2 => insertAll (fun d s => insert_synset d (synsetRow l.id s)) db2 l.synsets

/-- Pass 1: lexicons, lexical entries, synsets. -/
def pass1 (db : DB) (res : LexicalResource) : Except OewnError DB :=
  insertAll pass1_lexicon db res.lexicons

/-- Pass 2 body for one entry: its pronunciations, then its senses. -/
def pass2_entry (db : DB) (e : LexicalEntry) : Except OewnError DB :=
  match insertAll (fun d p => insert_pronunciation d (pronRow e.id p)) db e.pronunciations with
  | .error err => .error err
  | .ok db1 => insertAll (fun d s => insert_sense d (senseRow e.id s)) db1 e.senses

/-- Pass 2 body for one synset: its definitions, its optional ILI definition,
then its examples. -/
def pass2_synset (db : DB) (s : Synset) : Except OewnError DB :=
  match insertAll (fun d x => insert_definition d (defRow s.id x)) db s.definitions with
  | .error err => .error err
  | .ok db1 =>
    match (match s.ili_definition with
           | some d => insert_ili_definition db1 (iliDefRow s.id d)
           | none => .ok db1) with
    | .error err => .error err
    | .ok db2 => insertAll (fun d x => insert_example d (exampleRow s.id x)) db2 s.examples

/-- Pass 2 body for one lexicon: all its entries' details, then all its
synsets' details. -/
def pass2_lexicon (db : DB) (l : Lexicon) : Except OewnError DB :=
  match insertAll pass2_entry db l.lexical_entries with
  | .error err => .error err
  | .ok db1 => insertAll pass2_synset db1 l.synsets

/-- Pass 2: pronunciations, senses, definitions, ILI definitions, examples. -/
def pass2 (db : DB) (res : LexicalResource) : Except OewnError DB :=
  insertAll pass2_lexicon db res.lexicons

/-- Pass 3 body for one sense: its outgoing sense relations. -/
def pass3_sense (db : DB) (s : Sense) : Except OewnError DB :=
  insertAll (fun d r => insert_sense_relation d (senseRelRow s.id r)) db s.sense_relations

/-- Pass 3 body for one entry: the relations of all its senses. -/
def pass3_entry (db : DB) (e : LexicalEntry) : Except OewnError DB :=
  insertAll pass3_sense db e.senses

/-- Pass 3 body for one synset: its outgoing synset relations. -/
def pass3_synset (db : DB) (s : Synset) : Except OewnError DB :=
  insertAll (fun d r => insert_synset_relation d (synsetRelRow s.id r)) db s.synset_relations

/-- Pass 3 body for one lexicon: sense relations of all its entries, then
synset relations of all its synsets. -/
def pass3_lexicon (db : DB) (l : Lexicon) : Except OewnError DB :=
  match insertAll pass3_entry db l.lexical_entries with
  | .error err => .error err
  | .ok db1 => insertAll pass3_synset db1 l.synsets

/-- Pass 3: sense relations and synset relations. -/
def pass3 (db : DB) (res : LexicalResource) : Except OewnError DB :=
  insertAll pass3_lexicon db res.lexicons

/-- The body of `populate_database`: the three insertion passes executed
inside the single transaction, in order. -/
def populateBody (db : DB) (res : LexicalResource) : Except OewnError DB :=
  match pass1 db res with
  | .error e => .error e
  | .ok db1 =>
    match pass2 db1 res with
    | .error e => .error e
    | .ok db2 => pass3 db2 res

/-- The store observable after `populate_database` returns: the transaction
commits only at the very end, so on any error the rollback restores the
pre-call state. -/
def populate_database_result (db : DB) (res : LexicalResource) : DB :=
  match populateBody db res with
  | .ok db2 => db2
  | .error _ => db

/-! ## The query engine (`lib.rs`)

The source aggregates join rows into nested records through `HashMap`s keyed
by id (`entry(..).or_insert_with`), which keeps the first row per key; this is
embedded as `dedupByKey`.  `HashSet`-based duplicate elimination of identical
child values and the source's cosmetic sorts are not modelled: with a store
produced by `populate_database` the relevant rows are unique (primary keys),
and all theorems below are membership statements. -/

/-- Keep the first element for each key, in order of first appearance (the
`HashMap::entry(key).or_insert_with` grouping of the source). -/
def dedupByKeyAux {α : Type} (k : α → String) (seen : List String) : List α → List α
  | [] => []
  | x :: xs =>
    if k x ∈ seen then dedupByKeyAux k seen xs
    else x :: dedupByKeyAux k (k x :: seen) xs

/-- Group-by-key deduplication: first element per key survives. -/
def dedupByKey {α : Type} (k : α → String) (xs : List α) : List α :=
  dedupByKeyAux k [] xs

/-- The `Sense` record materialised for a `senses` row: the sense's relations
are the `sense_relations` rows with this sense as source (the
`LEFT JOIN sense_relations sr ON s.id = sr.source_sense_id` of the source),
decoded through `string_to_sense_rel_type`. -/
def senseFromRow (db : DB) (r : SenseRow) : Sense :=
  { id := r.id, synset := r.synset_id,
    sense_relations :=
      (db.sense_relations.filter (fun x => x.source_sense_id == r.id)).map
        (fun x => { target := x.target_sense_id, rel_type := senseRelOfString x.rel_type }) }

/-- The `Pronunciation` record materialised for a `pronunciations` row. -/
def pronFromRow (r : PronRow) : Pronunciation :=
  { variety := r.variety, nota := r.nota, phonemic := r.phonemic,
    audio := r.audio, text := r.text }

/-- `mapM` for `Except`: materialise each row, propagating the first
row-conversion error, exactly as the source's `for result in rows_iter
{ result?; }` loop does. -/
def mapExcept {α β : Type} (f : α → Except OewnError β) : List α → Except OewnError (List β)
  | [] => .ok []
  | x :: xs =>
    match f x with
    | .error e => .error e
    | .ok y =>
      match mapExcept f xs with
      | .error e => .error e
      | .ok ys => .ok (y :: ys)

/-- Full materialisation of one `lexical_entries` row: parse the stored
part-of-speech string, join pronunciations and senses (with their relations)
by entry id. -/
def materializeEntry (db : DB) (e : EntryRow) : Except OewnError LexicalEntry :=
  match string_to_part_of_speech e.part_of_speech with
  | .error err => .error err
  | .ok pos =>
    .ok { id := e.id,
          lem := { written_form := e.lemma_written_form, part_of_speech := pos },
          pronunciations :=
            (db.pronunciations.filter (fun p => p.entry_id == e.id)).map pronFromRow,
          senses :=
            (dedupByKey (fun s => s.id)
              (db.senses.filter (fun s => s.entry_id == e.id))).map (senseFromRow db) }

/-- The `WHERE` clause of `lookup_entries`:
`le.lemma_written_form_lower = ?1 AND (?2 IS NULL OR le.part_of_speech = ?2)`. -/
def lookupMatches (lower : String) (posStr : Option String) (e : EntryRow) : Bool :=
  e.lemma_written_form_lower == lower &&
    (match posStr with
     | none => true
     | some p => e.part_of_speech == p)

/-- `WordNet::lookup_entries`: lowercase the query, filter the entry table,
group rows by entry id and materialise each matching entry. -/
def lookup_entries (db : DB) (lemma_q : String) (pos_filter : Option PartOfSpeech) :
    Except OewnError (List LexicalEntry) :=
  let lower := rustLower lemma_q
  let posStr := pos_filter.map part_of_speech_to_string
  mapExcept (materializeEntry db)
    (dedupByKey (fun e => e.id) (db.lexical_entries.filter (lookupMatches lower posStr)))

/-- `WordNet::get_senses_for_synset`: `SELECT .. FROM senses s LEFT JOIN
sense_relations .. WHERE s.synset_id = ?1`, grouped by sense id.  The only
possible per-row failure is relation-kind decoding, which never fails, so the
result is always `Ok`. -/
def get_senses_for_synset (db : DB) (synset_id : String) : Except OewnError (List Sense) :=
  .ok ((dedupByKey (fun r => r.id)
          (db.senses.filter (fun r => r.synset_id == synset_id))).map (senseFromRow db))

/-- `WordNet::get_senses_for_entry` / `fetch_senses_for_entry_internal`. -/
def get_senses_for_entry (db : DB) (entry_id : String) : Except OewnError (List Sense) :=
  .ok ((dedupByKey (fun r => r.id)
          (db.senses.filter (fun r => r.entry_id == entry_id))).map (senseFromRow db))

/-- `WordNet::fetch_full_sense_by_id`: first `senses` row with the id, with its
relations joined in. -/
def fetch_full_sense_by_id (db : DB) (sense_id : String) : Option Sense :=
  (db.senses.find? (fun r => r.id == sense_id)).map (senseFromRow db)

/-- `WordNet::get_sense`: a missing id is reported through
`OewnError::Internal`, not through a dedicated not-found variant. -/
def get_sense (db : DB) (sense_id : String) : Except OewnError Sense :=
  match fetch_full_sense_by_id db sense_id with
  | some s => .ok s
  | none => .error (.Internal ("Sense ID not found: " ++ sense_id))

/-- Full materialisation of one `synsets` row (`fetch_full_synset_by_id` and
the per-target aggregation of `get_related_synsets` build exactly this shape):
definitions, the optional ILI definition, examples and outgoing relations are
joined by synset id, and `members` is left as the empty string — the source
sets `members: String::new()` because the column is not stored. -/
def materializeSynset (db : DB) (r : SynsetRow) : Except OewnError Synset :=
  match string_to_part_of_speech r.part_of_speech with
  | .error err => .error err
  | .ok pos =>
    .ok { id := r.id, ili := r.ili, part_of_speech := pos,
          members := "",
          definitions :=
            (db.definitions.filter (fun d => d.synset_id == r.id)).map
              (fun d => { text := d.text, dc_source := d.dc_source }),
          ili_definition :=
            (db.ili_definitions.find? (fun d => d.synset_id == r.id)).map
              (fun d => { text := d.text, dc_source := d.dc_source }),
          examples :=
            (db.examples.filter (fun e => e.synset_id == r.id)).map
              (fun e => { text := e.text, dc_source := e.dc_source }),
          synset_relations :=
            (db.synset_relations.filter (fun x => x.source_synset_id == r.id)).map
              (fun x => { target := x.target_synset_id,
                          rel_type := synsetRelOfString x.rel_type }) }

/-- `WordNet::fetch_full_synset_by_id`. -/
def fetch_full_synset_by_id (db : DB) (synset_id : String) :
    Except OewnError (Option Synset) :=
  match db.synsets.find? (fun r => r.id == synset_id) with
  | none => .ok none
  | some r =>
    match materializeSynset db r with
    | .error e => .error e
    | .ok s => .ok (some s)

/-- `WordNet::get_synset`: a missing id is reported through
`OewnError::SynsetNotFound`. -/
def get_synset (db : DB) (synset_id : String) : Except OewnError Synset :=
  match fetch_full_synset_by_id db synset_id with
  | .error e => .error e
  | .ok none => .error (.SynsetNotFound synset_id)
  | .ok (some s) => .ok s

/-- `WordNet::get_related_senses`: relation rows with the given source and
kind, joined to the target sense rows, each target materialised with its own
relations; grouping by target id keeps one result per target.  Relation-kind
decoding never fails, so the result is always `Ok`. -/
def get_related_senses (db : DB) (sense_id : String) (rel_type : SenseRelType) :
    Except OewnError (List Sense) :=
  let rts := sense_rel_type_to_string rel_type
  let rels := db.sense_relations.filter
    (fun r => r.source_sense_id == sense_id && r.rel_type == rts)
  .ok ((dedupByKey (fun r => r.id)
          (rels.filterMap (fun r => db.senses.find? (fun s => s.id == r.target_sense_id)))).map
        (senseFromRow db))

/-- `WordNet::get_related_synsets`: relation rows with the given source and
kind, joined to the target synset rows, each target fully materialised
(definitions, examples, relations, `members` empty). -/
def get_related_synsets (db : DB) (synset_id : String) (rel_type : SynsetRelType) :
    Except OewnError (List Synset) :=
  let rts := synset_rel_type_to_string rel_type
  let rels := db.synset_relations.filter
    (fun r => r.source_synset_id == synset_id && r.rel_type == rts)
  mapExcept (materializeSynset db)
    (dedupByKey (fun r => r.id)
      (rels.filterMap (fun r => db.synsets.find? (fun s => s.id == r.target_synset_id))))

/-- `WordNet::fetch_full_entry_by_id`: first `lexical_entries` row with the
id, fully materialised. -/
def fetch_full_entry_by_id (db : DB) (entry_id : String) :
    Except OewnError (Option LexicalEntry) :=
  match db.lexical_entries.find? (fun r => r.id == entry_id) with
  | none => .ok none
  | some r =>
    match materializeEntry db r with
    | .error e => .error e
    | .ok e => .ok (some e)

/-- `WordNet::get_random_entry`: `SELECT id FROM lexical_entries ORDER BY
RANDOM() LIMIT 1` is modelled by an oracle `pick` choosing an index into the
entry table; with no rows the source returns the `Internal` "No entries"
error, otherwise it re-fetches the chosen id. -/
def get_random_entry (db : DB) (pick : Nat) : Except OewnError LexicalEntry :=
  match db.lexical_entries with
  | [] => .error (.Internal "No entries found in database.")
  | e0 :: rest =>
    let chosen := (e0 :: rest).get ⟨pick % (e0 :: rest).length, Nat.mod_lt _ (Nat.succ_pos _)⟩
    match fetch_full_entry_by_id db chosen.id with
    | .error e => .error e
    | .ok (some entry) => .ok entry
    | .ok none => .error (.Internal ("Random entry ID " ++ chosen.id ++ " not found."))

/-! ## Schema-version handling and the load-time population decision
(`db.rs::initialize_database`, `lib.rs::load_with_options`) -/

/-- `SCHEMA_VERSION` from `db.rs`. -/
def SCHEMA_VERSION : Nat := 1

/-- Rust's `str::parse::<u32>()` on the stored version string, modelled as a
plain decimal parser over the character list (kernel-evaluable; the `u32`
range limit is immaterial for the version numbers involved). -/
def parseNat? (s : String) : Option Nat :=
  if s.data ≠ [] ∧ s.data.all (fun c => c.isDigit) then
    some (s.data.foldl (fun n c => n * 10 + (c.toNat - 48)) 0)
  else none

/-- Outcome of the schema-version check inside `initialize_database`. -/
structure VersionCheckResult where
  new_stored : String
  data_discarded : Bool
  deriving DecidableEq, Repr

/-- The schema-version check of `initialize_database` (`db.rs`): with no
stored version the expected one is inserted; an unparsable stored version is a
`ParseError`; an **older** stored version is merely overwritten with the
expected number (the source logs "Migration needed" and updates the metadata
row); a **newer** stored version is kept (the source logs "Using potentially
incompatible schema").  No branch deletes any data, so `data_discarded` is
`false` in every outcome. -/
def schema_version_check (stored : Option String) : Except OewnError VersionCheckResult :=
  match stored with
  | none => .ok { new_stored := toString SCHEMA_VERSION, data_discarded := false }
  | some v_str =>
    match parseNat? v_str with
    | none => .error (.ParseError ("Failed to parse existing schema version: " ++ v_str))
    | some v =>
      if v < SCHEMA_VERSION then
        .ok { new_stored := toString SCHEMA_VERSION, data_discarded := false }
      else
        .ok { new_stored := v_str, data_discarded := false }

/-- The population decision of `load_with_options` (`lib.rs`): populate when
the database file is missing or a forced reload was requested; otherwise
populate exactly when the `lexicons` table is empty.  The schema version plays
no part in this decision. -/
def load_needs_population (db_exists force_reload : Bool) (lexicon_count : Nat) : Bool :=
  if !db_exists || force_reload then true else lexicon_count == 0

/-! ## Spec-side predicate for claim C4 -/

/-- Refinement predicate written from the specification's words, **not** from
the source: the spec's error taxonomy calls an error "NotFound-style" when it
is one of the dedicated not-found variants of `OewnError` (`SynsetNotFound`,
`LexicalEntryNotFound`, `DataFileNotFound`), as opposed to the generic
`Internal` error. -/
def specNotFoundStyle : OewnError → Bool
  | .SynsetNotFound _ => true
  | .LexicalEntryNotFound _ => true
  | .DataFileNotFound _ => true
  | _ => false

/-! ## Infrastructure lemmas -/

theorem flatten_map_singleton {α β : Type} (g : α → β) (xs : List α) :
    (xs.map (fun x => [g x])).flatten = xs.map g := by
  induction xs with
  | nil => rfl
  | cons x xs ih => simp [ih]

theorem mem_of_mem_dedupByKeyAux {α : Type} {k : α → String} {seen : List String}
    {xs : List α} {x : α} (h : x ∈ dedupByKeyAux k seen xs) : x ∈ xs := by
  induction xs generalizing seen with
  | nil => simp [dedupByKeyAux] at h
  | cons y ys ih =>
    unfold dedupByKeyAux at h
    split at h
    · exact List.mem_cons_of_mem _ (ih h)
    · rcases List.mem_cons.mp h with h | h
      · exact h ▸ List.mem_cons_self _ _
      · exact List.mem_cons_of_mem _ (ih h)

theorem exists_mem_dedupByKeyAux {α : Type} {k : α → String} {seen : List String}
    {xs : List α} {y : α} (hy : y ∈ xs) (hseen : k y ∉ seen) :
    ∃ x, x ∈ dedupByKeyAux k seen xs ∧ k x = k y := by
  induction xs generalizing seen with
  | nil => cases hy
  | cons z zs ih =>
    unfold dedupByKeyAux
    rcases List.mem_cons.mp hy with rfl | hy
    · split
      · exact absurd ‹k y ∈ seen› hseen
      · exact ⟨y, List.mem_cons_self _ _, rfl⟩
    · split
      · exact ih hy hseen
      · by_cases hk : k y = k z
        · exact ⟨z, List.mem_cons_self _ _, hk.symm⟩
        · obtain ⟨x, hx, hkx⟩ := ih hy (by
            intro hmem
            rcases List.mem_cons.mp hmem with h | h
            · exact hk h
            · exact hseen h)
          exact ⟨x, List.mem_cons_of_mem _ hx, hkx⟩

theorem mem_of_mem_dedupByKey {α : Type} {k : α → String} {xs : List α} {x : α}
    (h : x ∈ dedupByKey k xs) : x ∈ xs :=
  mem_of_mem_dedupByKeyAux h

theorem exists_mem_dedupByKey {α : Type} {k : α → String} {xs : List α} {y : α}
    (hy : y ∈ xs) : ∃ x, x ∈ dedupByKey k xs ∧ k x = k y :=
  exists_mem_dedupByKeyAux hy (by simp)

theorem mapExcept_ok_of_forall {α β : Type} {f : α → Except OewnError β} {xs : List α}
    (h : ∀ x ∈ xs, ∃ y, f x = .ok y) :
    ∃ l, mapExcept f xs = .ok l ∧ ∀ x ∈ xs, ∃ y, y ∈ l ∧ f x = .ok y := by
  induction xs with
  | nil => exact ⟨[], rfl, by simp⟩
  | cons x xs ih =>
    obtain ⟨y, hy⟩ := h x (List.mem_cons_self _ _)
    obtain ⟨l, hl, hmem⟩ := ih (fun z hz => h z (List.mem_cons_of_mem _ hz))
    refine ⟨y :: l, ?_, ?_⟩
    · unfold mapExcept
      rw [hy, hl]
    · intro z hz
      rcases List.mem_cons.mp hz with rfl | hz
      · exact ⟨y, List.mem_cons_self _ _, hy⟩
      · obtain ⟨w, hw, hfw⟩ := hmem z hz
        exact ⟨w, List.mem_cons_of_mem _ hw, hfw⟩

theorem mapExcept_mem_source {α β : Type} {f : α → Except OewnError β} {xs : List α}
    {l : List β} (h : mapExcept f xs = .ok l) {y : β} (hy : y ∈ l) :
    ∃ x, x ∈ xs ∧ f x = .ok y := by
  induction xs generalizing l with
  | nil =>
    unfold mapExcept at h
    injection h with h
    subst h
    cases hy
  | cons x xs ih =>
    unfold mapExcept at h
    cases hfx : f x with
    | error e => rw [hfx] at h; exact Except.noConfusion h
    | ok z =>
      rw [hfx] at h
      cases hrest : mapExcept f xs with
      | error e => rw [hrest] at h; exact Except.noConfusion h
      | ok zs =>
        rw [hrest] at h
        injection h with h
        subst h
        rcases List.mem_cons.mp hy with rfl | hy
        · exact ⟨x, List.mem_cons_self _ _, hfx⟩
        · obtain ⟨w, hw, hfw⟩ := ih hrest hy
          exact ⟨w, List.mem_cons_of_mem _ hw, hfw⟩

/-! ### Shape of the single-row inserts -/

theorem insert_lexicon_ok {db : DB} {r : LexiconRow} {db' : DB}
    (h : insert_lexicon db r = .ok db') :
    db' = { db with lexicons := db.lexicons ++ [r] } := by
  unfold insert_lexicon at h
  split at h
  · exact Except.noConfusion h
  · injection h with h; exact h.symm

theorem insert_entry_ok {db : DB} {r : EntryRow} {db' : DB}
    (h : insert_entry db r = .ok db') :
    db' = { db with lexical_entries := db.lexical_entries ++ [r] } := by
  unfold insert_entry at h
  split at h
  · exact Except.noConfusion h
  · injection h with h; exact h.symm

theorem insert_synset_ok {db : DB} {r : SynsetRow} {db' : DB}
    (h : insert_synset db r = .ok db') :
    db' = { db with synsets := db.synsets ++ [r] } := by
  unfold insert_synset at h
  split at h
  · exact Except.noConfusion h
  · injection h with h; exact h.symm

theorem insert_pronunciation_ok {db : DB} {r : PronRow} {db' : DB}
    (h : insert_pronunciation db r = .ok db') :
    db' = { db with pronunciations := db.pronunciations ++ [r] } := by
  unfold insert_pronunciation at h
  injection h with h; exact h.symm

theorem insert_sense_ok {db : DB} {r : SenseRow} {db' : DB}
    (h : insert_sense db r = .ok db') :
    db' = { db with senses := db.senses ++ [r] } := by
  unfold insert_sense at h
  split at h
  · exact Except.noConfusion h
  · injection h with h; exact h.symm

theorem insert_definition_ok {db : DB} {r : DefinitionRow} {db' : DB}
    (h : insert_definition db r = .ok db') :
    db' = { db with definitions := db.definitions ++ [r] } := by
  unfold insert_definition at h
  injection h with h; exact h.symm

theorem insert_ili_definition_ok {db : DB} {r : IliDefRow} {db' : DB}
    (h : insert_ili_definition db r = .ok db') :
    db' = { db with ili_definitions := db.ili_definitions ++ [r] } := by
  unfold insert_ili_definition at h
  split at h
  · exact Except.noConfusion h
  · injection h with h; exact h.symm

theorem insert_example_ok {db : DB} {r : ExampleRow} {db' : DB}
    (h : insert_example db r = .ok db') :
    db' = { db with examples := db.examples ++ [r] } := by
  unfold insert_example at h
  injection h with h; exact h.symm

theorem insert_sense_relation_ok {db : DB} {r : SenseRelRow} {db' : DB}
    (h : insert_sense_relation db r = .ok db') :
    db' = db ∨ db' = { db with sense_relations := db.sense_relations ++ [r] } := by
  unfold insert_sense_relation at h
  split at h
  · left; injection h with h; exact h.symm
  · right; injection h with h; exact h.symm

theorem insert_sense_relation_mem {db : DB} {r : SenseRelRow} {db' : DB}
    (h : insert_sense_relation db r = .ok db') : r ∈ db'.sense_relations := by
  unfold insert_sense_relation at h
  split at h
  next hmem => injection h with h; exact h ▸ hmem
  next hmem => injection h with h; subst h; simp

theorem insert_synset_relation_ok {db : DB} {r : SynsetRelRow} {db' : DB}
    (h : insert_synset_relation db r = .ok db') :
    db' = db ∨ db' = { db with synset_relations := db.synset_relations ++ [r] } := by
  unfold insert_synset_relation at h
  split at h
  · left; injection h with h; exact h.symm
  · right; injection h with h; exact h.symm

theorem insert_synset_relation_mem {db : DB} {r : SynsetRelRow} {db' : DB}
    (h : insert_synset_relation db r = .ok db') : r ∈ db'.synset_relations := by
  unfold insert_synset_relation at h
  split at h
  next hmem => injection h with h; exact h ▸ hmem
  next hmem => injection h with h; subst h; simp

/-! ### Generic lemmas about `insertAll` -/

theorem insertAll_proj {α β : Type} {f : DB → α → Except OewnError DB}
    (proj : DB → List β) (g : α → List β)
    (hf : ∀ db x db', f db x = .ok db' → proj db' = proj db ++ g x) :
    ∀ db xs db', insertAll f db xs = .ok db' →
      proj db' = proj db ++ (xs.map g).flatten := by
  intro db xs
  induction xs generalizing db with
  | nil =>
    intro db' h
    unfold insertAll at h
    injection h with h
    subst h
    simp
  | cons x xs ih =>
    intro db' h
    unfold insertAll at h
    cases hfx : f db x with
    | error e => rw [hfx] at h; exact Except.noConfusion h
    | ok db1 =>
      rw [hfx] at h
      rw [ih db1 db' h, hf db x db1 hfx]
      simp

theorem insertAll_proj_eq {α β : Type} {f : DB → α → Except OewnError DB}
    (proj : DB → List β)
    (hf : ∀ db x db', f db x = .ok db' → proj db' = proj db) :
    ∀ db xs db', insertAll f db xs = .ok db' → proj db' = proj db := by
  intro db xs
  induction xs generalizing db with
  | nil =>
    intro db' h
    unfold insertAll at h
    injection h with h
    subst h
    rfl
  | cons x xs ih =>
    intro db' h
    unfold insertAll at h
    cases hfx : f db x with
    | error e => rw [hfx] at h; exact Except.noConfusion h
    | ok db1 =>
      rw [hfx] at h
      rw [ih db1 db' h, hf db x db1 hfx]

theorem insertAll_preserve {α : Type} {f : DB → α → Except OewnError DB} {P : DB → Prop}
    (hf : ∀ db x db', f db x = .ok db' → P db → P db') :
    ∀ db xs db', insertAll f db xs = .ok db' → P db → P db' := by
  intro db xs
  induction xs generalizing db with
  | nil =>
    intro db' h hP
    unfold insertAll at h
    injection h with h
    subst h
    exact hP
  | cons x xs ih =>
    intro db' h hP
    unfold insertAll at h
    cases hfx : f db x with
    | error e => rw [hfx] at h; exact Except.noConfusion h
    | ok db1 =>
      rw [hfx] at h
      exact ih db1 db' h (hf db x db1 hfx hP)

theorem insertAll_reach {α β : Type} (f : DB → α → Except OewnError DB)
    (proj : DB → List β) {x0 : α} {b : β}
    (hmono : ∀ db x db', f db x = .ok db' → ∀ c ∈ proj db, c ∈ proj db')
    (hhit : ∀ db db', f db x0 = .ok db' → b ∈ proj db') :
    ∀ db xs db', x0 ∈ xs → insertAll f db xs = .ok db' → b ∈ proj db' := by
  intro db xs
  induction xs generalizing db with
  | nil => intro db' hx; cases hx
  | cons y ys ih =>
    intro db' hx h
    unfold insertAll at h
    cases hfy : f db y with
    | error e => rw [hfy] at h; exact Except.noConfusion h
    | ok db1 =>
      rw [hfy] at h
      rcases List.mem_cons.mp hx with rfl | hx
      · exact insertAll_preserve (P := fun d => b ∈ proj d)
          (fun d x d' hd hb => hmono d x d' hd b hb) db1 ys db' h (hhit db db1 hfy)
      · exact ih db1 db' hx h

/-! ### Rows produced by a whole resource, in insertion order -/

/-- All `lexicons` rows of a resource. -/
def lexiconRowsOf (res : LexicalResource) : List LexiconRow :=
  res.lexicons.map lexiconRow

/-- All `lexical_entries` rows of a resource. -/
def entryRowsOf (res : LexicalResource) : List EntryRow :=
  (res.lexicons.map (fun l => l.lexical_entries.map (entryRow l.id))).flatten

/-- All `synsets` rows of a resource. -/
def synsetRowsOf (res : LexicalResource) : List SynsetRow :=
  (res.lexicons.map (fun l => l.synsets.map (synsetRow l.id))).flatten

/-- All `pronunciations` rows of a resource. -/
def pronRowsOf (res : LexicalResource) : List PronRow :=
  (res.lexicons.map (fun l =>
    (l.lexical_entries.map (fun e => e.pronunciations.map (pronRow e.id))).flatten)).flatten

/-- All `senses` rows of a resource. -/
def senseRowsOf (res : LexicalResource) : List SenseRow :=
  (res.lexicons.map (fun l =>
    (l.lexical_entries.map (fun e => e.senses.map (senseRow e.id))).flatten)).flatten

/-- All `definitions` rows of a resource. -/
def defRowsOf (res : LexicalResource) : List DefinitionRow :=
  (res.lexicons.map (fun l =>
    (l.synsets.map (fun s => s.definitions.map (defRow s.id))).flatten)).flatten

/-- All `ili_definitions` rows of a resource. -/
def iliRowsOf (res : LexicalResource) : List IliDefRow :=
  (res.lexicons.map (fun l =>
    (l.synsets.map (fun s => (s.ili_definition.map (iliDefRow s.id)).toList)).flatten)).flatten

/-- All `examples` rows of a resource. -/
def exampleRowsOf (res : LexicalResource) : List ExampleRow :=
  (res.lexicons.map (fun l =>
    (l.synsets.map (fun s => s.examples.map (exampleRow s.id))).flatten)).flatten

/-! ### Projections preserved by each pass -/

theorem pass1_lexicon_proj_eq {β : Type} (proj : DB → List β)
    (h1 : ∀ db r db', insert_lexicon db r = .ok db' → proj db' = proj db)
    (h2 : ∀ db r db', insert_entry db r = .ok db' → proj db' = proj db)
    (h3 : ∀ db r db', insert_synset db r = .ok db' → proj db' = proj db) :
    ∀ db l db', pass1_lexicon db l = .ok db' → proj db' = proj db := by
  intro db l db' h
  unfold pass1_lexicon at h
  cases h0 : insert_lexicon db (lexiconRow l) with
  | error e => rw [h0] at h; exact Except.noConfusion h
  | ok db1 =>
    rw [h0] at h
    dsimp only at h
    cases hA : insertAll (fun d e => insert_entry d (entryRow l.id e)) db1 l.lexical_entries with
    | error e => rw [hA] at h; exact Except.noConfusion h
    | ok db2 =>
      rw [hA] at h
      dsimp only at h
      have e2 := insertAll_proj_eq proj (fun d x d' hd => h3 d _ d' hd) db2 _ db' h
      have e1 := insertAll_proj_eq proj (fun d x d' hd => h2 d _ d' hd) db1 _ db2 hA
      rw [e2, e1, h1 db _ db1 h0]

theorem pass2_entry_proj_eq {β : Type} (proj : DB → List β)
    (h1 : ∀ db r db', insert_pronunciation db r = .ok db' → proj db' = proj db)
    (h2 : ∀ db r db', insert_sense db r = .ok db' → proj db' = proj db) :
    ∀ db e db', pass2_entry db e = .ok db' → proj db' = proj db := by
  intro db e db' h
  unfold pass2_entry at h
  cases h0 : insertAll (fun d p => insert_pronunciation d (pronRow e.id p)) db e.pronunciations with
  | error err => rw [h0] at h; exact Except.noConfusion h
  | ok db1 =>
    rw [h0] at h
    dsimp only at h
    have e1 := insertAll_proj_eq proj (fun d x d' hd => h1 d _ d' hd) db _ db1 h0
    have e2 := insertAll_proj_eq proj (fun d x d' hd => h2 d _ d' hd) db1 _ db' h
    rw [e2, e1]

theorem pass2_synset_proj_eq {β : Type} (proj : DB → List β)
    (h1 : ∀ db r db', insert_definition db r = .ok db' → proj db' = proj db)
    (h2 : ∀ db r db', insert_ili_definition db r = .ok db' → proj db' = proj db)
    (h3 : ∀ db r db', insert_example db r = .ok db' → proj db' = proj db) :
    ∀ db s db', pass2_synset db s = .ok db' → proj db' = proj db := by
  intro db s db' h
  unfold pass2_synset at h
  cases h0 : insertAll (fun d x => insert_definition d (defRow s.id x)) db s.definitions with
  | error err => rw [h0] at h; exact Except.noConfusion h
  | ok db1 =>
    rw [h0] at h
    dsimp only at h
    have e1 := insertAll_proj_eq proj (fun d x d' hd => h1 d _ d' hd) db _ db1 h0
    cases hili : s.ili_definition with
    | none =>
      rw [hili] at h
      simp only at h
      cases hEx : insertAll (fun d x => insert_example d (exampleRow s.id x)) db1 s.examples with
      | error err => rw [hEx] at h; exact Except.noConfusion h
      | ok db3 =>
        rw [hEx] at h
        injection h with h
        subst h
        have e3 := insertAll_proj_eq proj (fun d x d' hd => h3 d _ d' hd) db1 _ db3 hEx
        rw [e3, e1]
    | some d0 =>
      rw [hili] at h
      simp only at h
      cases h2' : insert_ili_definition db1 (iliDefRow s.id d0) with
      | error err => rw [h2'] at h; exact Except.noConfusion h
      | ok db2 =>
        rw [h2'] at h
        dsimp only at h
        have e2 := h2 db1 _ db2 h2'
        have e3 := insertAll_proj_eq proj (fun d x d' hd => h3 d _ d' hd) db2 _ db' h
        rw [e3, e2, e1]

theorem pass2_lexicon_proj_eq {β : Type} (proj : DB → List β)
    (hE : ∀ db e db', pass2_entry db e = .ok db' → proj db' = proj db)
    (hS : ∀ db s db', pass2_synset db s = .ok db' → proj db' = proj db) :
    ∀ db l db', pass2_lexicon db l = .ok db' → proj db' = proj db := by
  intro db l db' h
  unfold pass2_lexicon at h
  cases h0 : insertAll pass2_entry db l.lexical_entries with
  | error err => rw [h0] at h; exact Except.noConfusion h
  | ok db1 =>
    rw [h0] at h
    dsimp only at h
    have e1 := insertAll_proj_eq proj hE db _ db1 h0
    have e2 := insertAll_proj_eq proj hS db1 _ db' h
    rw [e2, e1]

theorem pass3_lexicon_proj_eq {β : Type} (proj : DB → List β)
    (h1 : ∀ db r db', insert_sense_relation db r = .ok db' → proj db' = proj db)
    (h2 : ∀ db r db', insert_synset_relation db r = .ok db' → proj db' = proj db) :
    ∀ db l db', pass3_lexicon db l = .ok db' → proj db' = proj db := by
  intro db l db' h
  unfold pass3_lexicon at h
  cases h0 : insertAll pass3_entry db l.lexical_entries with
  | error err => rw [h0] at h; exact Except.noConfusion h
  | ok db1 =>
    rw [h0] at h
    dsimp only at h
    have hE : ∀ db e db', pass3_entry db e = .ok db' → proj db' = proj db := by
      intro d e d' hd
      exact insertAll_proj_eq proj
        (fun d2 s d2' hd2 =>
          insertAll_proj_eq proj (fun d3 x d3' hd3 => h1 d3 _ d3' hd3) d2 _ d2' hd2)
        d _ d' hd
    have hS : ∀ db s db', pass3_synset db s = .ok db' → proj db' = proj db := by
      intro d s d' hd
      exact insertAll_proj_eq proj (fun d3 x d3' hd3 => h2 d3 _ d3' hd3) d _ d' hd
    have e1 := insertAll_proj_eq proj hE db _ db1 h0
    have e2 := insertAll_proj_eq proj hS db1 _ db' h
    rw [e2, e1]

theorem pass3_proj_eq {β : Type} (proj : DB → List β)
    (h1 : ∀ db r db', insert_sense_relation db r = .ok db' → proj db' = proj db)
    (h2 : ∀ db r db', insert_synset_relation db r = .ok db' → proj db' = proj db) :
    ∀ db res db', pass3 db res = .ok db' → proj db' = proj db := by
  intro db res db' h
  exact insertAll_proj_eq proj (fun d l d' hd => pass3_lexicon_proj_eq proj h1 h2 d l d' hd)
    db _ db' h

/-! ### What each pass appends -/

theorem pass1_lexicon_shape {db : DB} {l : Lexicon} {db' : DB}
    (h : pass1_lexicon db l = .ok db') :
    db'.lexicons = db.lexicons ++ [lexiconRow l] ∧
    db'.lexical_entries = db.lexical_entries ++ l.lexical_entries.map (entryRow l.id) ∧
    db'.synsets = db.synsets ++ l.synsets.map (synsetRow l.id) := by
  unfold pass1_lexicon at h
  cases h0 : insert_lexicon db (lexiconRow l) with
  | error e => rw [h0] at h; exact Except.noConfusion h
  | ok db1 =>
    rw [h0] at h
    dsimp only at h
    cases hA : insertAll (fun d e => insert_entry d (entryRow l.id e)) db1 l.lexical_entries with
    | error e => rw [hA] at h; exact Except.noConfusion h
    | ok db2 =>
      rw [hA] at h
      dsimp only at h
      have e0 := insert_lexicon_ok h0
      refine ⟨?_, ?_, ?_⟩
      · have e2 := insertAll_proj_eq (fun d => d.lexicons)
          (fun d x d' hd => by rw [insert_synset_ok hd]) db2 _ db' h
        have e1 := insertAll_proj_eq (fun d => d.lexicons)
          (fun d x d' hd => by rw [insert_entry_ok hd]) db1 _ db2 hA
        simp only [e2, e1, e0]
      · have e2 := insertAll_proj_eq (fun d => d.lexical_entries)
          (fun d x d' hd => by rw [insert_synset_ok hd]) db2 _ db' h
        have e1 := insertAll_proj (fun d => d.lexical_entries)
          (fun e => [entryRow l.id e])
          (fun d x d' hd => by rw [insert_entry_ok hd]) db1 _ db2 hA
        simp only [e2, e1, e0, flatten_map_singleton]
      · have e2 := insertAll_proj (fun d => d.synsets)
          (fun s => [synsetRow l.id s])
          (fun d x d' hd => by rw [insert_synset_ok hd]) db2 _ db' h
        have e1 := insertAll_proj_eq (fun d => d.synsets)
          (fun d x d' hd => by rw [insert_entry_ok hd]) db1 _ db2 hA
        simp only [e2, e1, e0, flatten_map_singleton]

theorem pass2_entry_shape {db : DB} {e : LexicalEntry} {db' : DB}
    (h : pass2_entry db e = .ok db') :
    db'.pronunciations = db.pronunciations ++ e.pronunciations.map (pronRow e.id) ∧
    db'.senses = db.senses ++ e.senses.map (senseRow e.id) := by
  unfold pass2_entry at h
  cases h0 : insertAll (fun d p => insert_pronunciation d (pronRow e.id p)) db e.pronunciations with
  | error err => rw [h0] at h; exact Except.noConfusion h
  | ok db1 =>
    rw [h0] at h
    dsimp only at h
    refine ⟨?_, ?_⟩
    · have e2 := insertAll_proj_eq (fun d => d.pronunciations)
        (fun d x d' hd => by rw [insert_sense_ok hd]) db1 _ db' h
      have e1 := insertAll_proj (fun d => d.pronunciations)
        (fun p => [pronRow e.id p])
        (fun d x d' hd => by rw [insert_pronunciation_ok hd]) db _ db1 h0
      simp only [e2, e1, flatten_map_singleton]
    · have e2 := insertAll_proj (fun d => d.senses)
        (fun s => [senseRow e.id s])
        (fun d x d' hd => by rw [insert_sense_ok hd]) db1 _ db' h
      have e1 := insertAll_proj_eq (fun d => d.senses)
        (fun d x d' hd => by rw [insert_pronunciation_ok hd]) db _ db1 h0
      simp only [e2, e1, flatten_map_singleton]

theorem pass2_synset_shape {db : DB} {s : Synset} {db' : DB}
    (h : pass2_synset db s = .ok db') :
    db'.definitions = db.definitions ++ s.definitions.map (defRow s.id) ∧
    db'.ili_definitions = db.ili_definitions ++ (s.ili_definition.map (iliDefRow s.id)).toList ∧
    db'.examples = db.examples ++ s.examples.map (exampleRow s.id) := by
  unfold pass2_synset at h
  cases h0 : insertAll (fun d x => insert_definition d (defRow s.id x)) db s.definitions with
  | error err => rw [h0] at h; exact Except.noConfusion h
  | ok db1 =>
    rw [h0] at h
    dsimp only at h
    have eDef1 := insertAll_proj (fun d => d.definitions)
      (fun x => [defRow s.id x])
      (fun d x d' hd => by rw [insert_definition_ok hd]) db _ db1 h0
    have eIli1 := insertAll_proj_eq (fun d => d.ili_definitions)
      (fun d x d' hd => by rw [insert_definition_ok hd]) db _ db1 h0
    have eEx1 := insertAll_proj_eq (fun d => d.examples)
      (fun d x d' hd => by rw [insert_definition_ok hd]) db _ db1 h0
    cases hili : s.ili_definition with
    | none =>
      rw [hili] at h
      simp only at h
      cases hEx : insertAll (fun d x => insert_example d (exampleRow s.id x)) db1 s.examples with
      | error err => rw [hEx] at h; exact Except.noConfusion h
      | ok db3 =>
        rw [hEx] at h
        injection h with h
        subst h
        have eDef3 := insertAll_proj_eq (fun d => d.definitions)
          (fun d x d' hd => by rw [insert_example_ok hd]) db1 _ db3 hEx
        have eIli3 := insertAll_proj_eq (fun d => d.ili_definitions)
          (fun d x d' hd => by rw [insert_example_ok hd]) db1 _ db3 hEx
        have eEx3 := insertAll_proj (fun d => d.examples)
          (fun x => [exampleRow s.id x])
          (fun d x d' hd => by rw [insert_example_ok hd]) db1 _ db3 hEx
        refine ⟨?_, ?_, ?_⟩
        · simp only [eDef3, eDef1, flatten_map_singleton]
        · simp only [eIli3, eIli1, hili]; simp
        · simp only [eEx3, eEx1, flatten_map_singleton]
    | some d0 =>
      rw [hili] at h
      simp only at h
      cases h2' : insert_ili_definition db1 (iliDefRow s.id d0) with
      | error err => rw [h2'] at h; exact Except.noConfusion h
      | ok db2 =>
        rw [h2'] at h
        dsimp only at h
        have e2 := insert_ili_definition_ok h2'
        cases hEx : insertAll (fun d x => insert_example d (exampleRow s.id x)) db2 s.examples with
        | error err => rw [hEx] at h; exact Except.noConfusion h
        | ok db3 =>
          rw [hEx] at h
          injection h with h
          subst h
          have eDef3 := insertAll_proj_eq (fun d => d.definitions)
            (fun d x d' hd => by rw [insert_example_ok hd]) db2 _ db3 hEx
          have eIli3 := insertAll_proj_eq (fun d => d.ili_definitions)
            (fun d x d' hd => by rw [insert_example_ok hd]) db2 _ db3 hEx
          have eEx3 := insertAll_proj (fun d => d.examples)
            (fun x => [exampleRow s.id x])
            (fun d x d' hd => by rw [insert_example_ok hd]) db2 _ db3 hEx
          refine ⟨?_, ?_, ?_⟩
          · simp only [eDef3, e2, eDef1, flatten_map_singleton]
          · simp only [eIli3, e2, eIli1, hili]; simp
          · simp only [eEx3, e2, eEx1, flatten_map_singleton]

/-- `pass2_entry` leaves every synset-side table untouched. -/
theorem pass2_entry_synset_side {β : Type} (proj : DB → List β)
    (h1 : ∀ d r, proj { d with pronunciations := d.pronunciations ++ [r] } = proj d)
    (h2 : ∀ d r, proj { d with senses := d.senses ++ [r] } = proj d) :
    ∀ db e db', pass2_entry db e = .ok db' → proj db' = proj db :=
  pass2_entry_proj_eq proj
    (fun d r d' hd => by rw [insert_pronunciation_ok hd]; exact h1 d r)
    (fun d r d' hd => by rw [insert_sense_ok hd]; exact h2 d r)

/-- `pass2_synset` leaves every entry-side table untouched. -/
theorem pass2_synset_entry_side {β : Type} (proj : DB → List β)
    (h1 : ∀ d r, proj { d with definitions := d.definitions ++ [r] } = proj d)
    (h2 : ∀ d r, proj { d with ili_definitions := d.ili_definitions ++ [r] } = proj d)
    (h3 : ∀ d r, proj { d with examples := d.examples ++ [r] } = proj d) :
    ∀ db s db', pass2_synset db s = .ok db' → proj db' = proj db :=
  pass2_synset_proj_eq proj
    (fun d r d' hd => by rw [insert_definition_ok hd]; exact h1 d r)
    (fun d r d' hd => by rw [insert_ili_definition_ok hd]; exact h2 d r)
    (fun d r d' hd => by rw [insert_example_ok hd]; exact h3 d r)

theorem pass2_lexicon_shape {db : DB} {l : Lexicon} {db' : DB}
    (h : pass2_lexicon db l = .ok db') :
    db'.pronunciations = db.pronunciations ++
      (l.lexical_entries.map (fun e => e.pronunciations.map (pronRow e.id))).flatten ∧
    db'.senses = db.senses ++
      (l.lexical_entries.map (fun e => e.senses.map (senseRow e.id))).flatten ∧
    db'.definitions = db.definitions ++
      (l.synsets.map (fun s => s.definitions.map (defRow s.id))).flatten ∧
    db'.ili_definitions = db.ili_definitions ++
      (l.synsets.map (fun s => (s.ili_definition.map (iliDefRow s.id)).toList)).flatten ∧
    db'.examples = db.examples ++
      (l.synsets.map (fun s => s.examples.map (exampleRow s.id))).flatten := by
  unfold pass2_lexicon at h
  cases h0 : insertAll pass2_entry db l.lexical_entries with
  | error err => rw [h0] at h; exact Except.noConfusion h
  | ok db1 =>
    rw [h0] at h
    dsimp only at h
    refine ⟨?_, ?_, ?_, ?_, ?_⟩
    · have e1 := insertAll_proj (fun d => d.pronunciations)
        (fun e => e.pronunciations.map (pronRow e.id))
        (fun d x d' hd => (pass2_entry_shape hd).1) db _ db1 h0
      have e2 := pass2_synset_entry_side (fun d => d.pronunciations)
        (fun _ _ => rfl) (fun _ _ => rfl) (fun _ _ => rfl)
      have e2' := insertAll_proj_eq (fun d => d.pronunciations) e2 db1 _ db' h
      simp only [e2', e1]
    · have e1 := insertAll_proj (fun d => d.senses)
        (fun e => e.senses.map (senseRow e.id))
        (fun d x d' hd => (pass2_entry_shape hd).2) db _ db1 h0
      have e2 := pass2_synset_entry_side (fun d => d.senses)
        (fun _ _ => rfl) (fun _ _ => rfl) (fun _ _ => rfl)
      have e2' := insertAll_proj_eq (fun d => d.senses) e2 db1 _ db' h
      simp only [e2', e1]
    · have e1 := pass2_entry_synset_side (fun d => d.definitions)
        (fun _ _ => rfl) (fun _ _ => rfl)
      have e1' := insertAll_proj_eq (fun d => d.definitions) e1 db _ db1 h0
      have e2 := insertAll_proj (fun d => d.definitions)
        (fun s => s.definitions.map (defRow s.id))
        (fun d x d' hd => (pass2_synset_shape hd).1) db1 _ db' h
      simp only [e2, e1']
    · have e1 := pass2_entry_synset_side (fun d => d.ili_definitions)
        (fun _ _ => rfl) (fun _ _ => rfl)
      have e1' := insertAll_proj_eq (fun d => d.ili_definitions) e1 db _ db1 h0
      have e2 := insertAll_proj (fun d => d.ili_definitions)
        (fun s => (s.ili_definition.map (iliDefRow s.id)).toList)
        (fun d x d' hd => (pass2_synset_shape hd).2.1) db1 _ db' h
      simp only [e2, e1']
    · have e1 := pass2_entry_synset_side (fun d => d.examples)
        (fun _ _ => rfl) (fun _ _ => rfl)
      have e1' := insertAll_proj_eq (fun d => d.examples) e1 db _ db1 h0
      have e2 := insertAll_proj (fun d => d.examples)
        (fun s => s.examples.map (exampleRow s.id))
        (fun d x d' hd => (pass2_synset_shape hd).2.2) db1 _ db' h
      simp only [e2, e1']

theorem populateBody_cases {db : DB} {res : LexicalResource} {db' : DB}
    (h : populateBody db res = .ok db') :
    ∃ db1 db2, pass1 db res = .ok db1 ∧ pass2 db1 res = .ok db2 ∧ pass3 db2 res = .ok db' := by
  unfold populateBody at h
  cases h1 : pass1 db res with
  | error e => rw [h1] at h; exact Except.noConfusion h
  | ok db1 =>
    rw [h1] at h
    dsimp only at h
    cases h2 : pass2 db1 res with
    | error e => rw [h2] at h; exact Except.noConfusion h
    | ok db2 =>
      rw [h2] at h
      dsimp only at h
      exact ⟨db1, db2, rfl, h2, h⟩

/-- `pass2` touches none of the pass-1 tables. -/
theorem pass2_pass1_side {β : Type} (proj : DB → List β)
    (hp : ∀ d r, proj { d with pronunciations := d.pronunciations ++ [r] } = proj d)
    (hs : ∀ d r, proj { d with senses := d.senses ++ [r] } = proj d)
    (hd0 : ∀ d r, proj { d with definitions := d.definitions ++ [r] } = proj d)
    (hi : ∀ d r, proj { d with ili_definitions := d.ili_definitions ++ [r] } = proj d)
    (he : ∀ d r, proj { d with examples := d.examples ++ [r] } = proj d) :
    ∀ db res db', pass2 db res = .ok db' → proj db' = proj db := by
  intro db res db' h
  exact insertAll_proj_eq proj
    (fun d l d' hd =>
      pass2_lexicon_proj_eq proj
        (pass2_entry_proj_eq proj
          (fun d2 r d2' hd2 => by rw [insert_pronunciation_ok hd2]; exact hp d2 r)
          (fun d2 r d2' hd2 => by rw [insert_sense_ok hd2]; exact hs d2 r))
        (pass2_synset_proj_eq proj
          (fun d2 r d2' hd2 => by rw [insert_definition_ok hd2]; exact hd0 d2 r)
          (fun d2 r d2' hd2 => by rw [insert_ili_definition_ok hd2]; exact hi d2 r)
          (fun d2 r d2' hd2 => by rw [insert_example_ok hd2]; exact he d2 r))
        d l d' hd)
    db _ db' h

/-- `pass3` touches none of the non-relation tables. -/
theorem pass3_core_side {β : Type} (proj : DB → List β)
    (h1 : ∀ d r, proj { d with sense_relations := d.sense_relations ++ [r] } = proj d)
    (h2 : ∀ d r, proj { d with synset_relations := d.synset_relations ++ [r] } = proj d) :
    ∀ db res db', pass3 db res = .ok db' → proj db' = proj db :=
  pass3_proj_eq proj
    (fun d r d' hd => by
      rcases insert_sense_relation_ok hd with rfl | rfl
      · rfl
      · exact h1 d r)
    (fun d r d' hd => by
      rcases insert_synset_relation_ok hd with rfl | rfl
      · rfl
      · exact h2 d r)

/-! ### The eight append-only tables after `populate_database` -/

theorem populate_lexicons {db : DB} {res : LexicalResource} {db' : DB}
    (h : populateBody db res = .ok db') :
    db'.lexicons = db.lexicons ++ lexiconRowsOf res := by
  obtain ⟨db1, db2, h1, h2, h3⟩ := populateBody_cases h
  have e1 := insertAll_proj (fun d => d.lexicons) (fun l => [lexiconRow l])
    (fun d l d' hd => (pass1_lexicon_shape hd).1) db _ db1 h1
  have e2 := pass2_pass1_side (fun d => d.lexicons)
    (fun _ _ => rfl) (fun _ _ => rfl) (fun _ _ => rfl) (fun _ _ => rfl) (fun _ _ => rfl)
    db1 res db2 h2
  have e3 := pass3_core_side (fun d => d.lexicons)
    (fun _ _ => rfl) (fun _ _ => rfl) db2 res db' h3
  simp only [e3, e2, e1, flatten_map_singleton, lexiconRowsOf]

theorem populate_lexical_entries {db : DB} {res : LexicalResource} {db' : DB}
    (h : populateBody db res = .ok db') :
    db'.lexical_entries = db.lexical_entries ++ entryRowsOf res := by
  obtain ⟨db1, db2, h1, h2, h3⟩ := populateBody_cases h
  have e1 := insertAll_proj (fun d => d.lexical_entries)
    (fun l => l.lexical_entries.map (entryRow l.id))
    (fun d l d' hd => (pass1_lexicon_shape hd).2.1) db _ db1 h1
  have e2 := pass2_pass1_side (fun d => d.lexical_entries)
    (fun _ _ => rfl) (fun _ _ => rfl) (fun _ _ => rfl) (fun _ _ => rfl) (fun _ _ => rfl)
    db1 res db2 h2
  have e3 := pass3_core_side (fun d => d.lexical_entries)
    (fun _ _ => rfl) (fun _ _ => rfl) db2 res db' h3
  simp only [e3, e2, e1, entryRowsOf]

theorem populate_synsets {db : DB} {res : LexicalResource} {db' : DB}
    (h : populateBody db res = .ok db') :
    db'.synsets = db.synsets ++ synsetRowsOf res := by
  obtain ⟨db1, db2, h1, h2, h3⟩ := populateBody_cases h
  have e1 := insertAll_proj (fun d => d.synsets)
    (fun l => l.synsets.map (synsetRow l.id))
    (fun d l d' hd => (pass1_lexicon_shape hd).2.2) db _ db1 h1
  have e2 := pass2_pass1_side (fun d => d.synsets)
    (fun _ _ => rfl) (fun _ _ => rfl) (fun _ _ => rfl) (fun _ _ => rfl) (fun _ _ => rfl)
    db1 res db2 h2
  have e3 := pass3_core_side (fun d => d.synsets)
    (fun _ _ => rfl) (fun _ _ => rfl) db2 res db' h3
  simp only [e3, e2, e1, synsetRowsOf]

/-- `pass1` touches none of the pass-2 tables. -/
theorem pass1_pass2_side {β : Type} (proj : DB → List β)
    (hl : ∀ d r, proj { d with lexicons := d.lexicons ++ [r] } = proj d)
    (he : ∀ d r, proj { d with lexical_entries := d.lexical_entries ++ [r] } = proj d)
    (hs : ∀ d r, proj { d with synsets := d.synsets ++ [r] } = proj d) :
    ∀ db res db', pass1 db res = .ok db' → proj db' = proj db := by
  intro db res db' h
  exact insertAll_proj_eq proj
    (fun d l d' hd =>
      pass1_lexicon_proj_eq proj
        (fun d2 r d2' hd2 => by rw [insert_lexicon_ok hd2]; exact hl d2 r)
        (fun d2 r d2' hd2 => by rw [insert_entry_ok hd2]; exact he d2 r)
        (fun d2 r d2' hd2 => by rw [insert_synset_ok hd2]; exact hs d2 r)
        d l d' hd)
    db _ db' h

theorem populate_pronunciations {db : DB} {res : LexicalResource} {db' : DB}
    (h : populateBody db res = .ok db') :
    db'.pronunciations = db.pronunciations ++ pronRowsOf res := by
  obtain ⟨db1, db2, h1, h2, h3⟩ := populateBody_cases h
  have e1 := pass1_pass2_side (fun d => d.pronunciations)
    (fun _ _ => rfl) (fun _ _ => rfl) (fun _ _ => rfl) db res db1 h1
  have e2 := insertAll_proj (fun d => d.pronunciations)
    (fun l => (l.lexical_entries.map (fun e => e.pronunciations.map (pronRow e.id))).flatten)
    (fun d l d' hd => (pass2_lexicon_shape hd).1) db1 _ db2 h2
  have e3 := pass3_core_side (fun d => d.pronunciations)
    (fun _ _ => rfl) (fun _ _ => rfl) db2 res db' h3
  simp only [e3, e2, e1, pronRowsOf]

theorem populate_senses {db : DB} {res : LexicalResource} {db' : DB}
    (h : populateBody db res = .ok db') :
    db'.senses = db.senses ++ senseRowsOf res := by
  obtain ⟨db1, db2, h1, h2, h3⟩ := populateBody_cases h
  have e1 := pass1_pass2_side (fun d => d.senses)
    (fun _ _ => rfl) (fun _ _ => rfl) (fun _ _ => rfl) db res db1 h1
  have e2 := insertAll_proj (fun d => d.senses)
    (fun l => (l.lexical_entries.map (fun e => e.senses.map (senseRow e.id))).flatten)
    (fun d l d' hd => (pass2_lexicon_shape hd).2.1) db1 _ db2 h2
  have e3 := pass3_core_side (fun d => d.senses)
    (fun _ _ => rfl) (fun _ _ => rfl) db2 res db' h3
  simp only [e3, e2, e1, senseRowsOf]

theorem populate_definitions {db : DB} {res : LexicalResource} {db' : DB}
    (h : populateBody db res = .ok db') :
    db'.definitions = db.definitions ++ defRowsOf res := by
  obtain ⟨db1, db2, h1, h2, h3⟩ := populateBody_cases h
  have e1 := pass1_pass2_side (fun d => d.definitions)
    (fun _ _ => rfl) (fun _ _ => rfl) (fun _ _ => rfl) db res db1 h1
  have e2 := insertAll_proj (fun d => d.definitions)
    (fun l => (l.synsets.map (fun s => s.definitions.map (defRow s.id))).flatten)
    (fun d l d' hd => (pass2_lexicon_shape hd).2.2.1) db1 _ db2 h2
  have e3 := pass3_core_side (fun d => d.definitions)
    (fun _ _ => rfl) (fun _ _ => rfl) db2 res db' h3
  simp only [e3, e2, e1, defRowsOf]

theorem populate_ili_definitions {db : DB} {res : LexicalResource} {db' : DB}
    (h : populateBody db res = .ok db') :
    db'.ili_definitions = db.ili_definitions ++ iliRowsOf res := by
  obtain ⟨db1, db2, h1, h2, h3⟩ := populateBody_cases h
  have e1 := pass1_pass2_side (fun d => d.ili_definitions)
    (fun _ _ => rfl) (fun _ _ => rfl) (fun _ _ => rfl) db res db1 h1
  have e2 := insertAll_proj (fun d => d.ili_definitions)
    (fun l => (l.synsets.map (fun s => (s.ili_definition.map (iliDefRow s.id)).toList)).flatten)
    (fun d l d' hd => (pass2_lexicon_shape hd).2.2.2.1) db1 _ db2 h2
  have e3 := pass3_core_side (fun d => d.ili_definitions)
    (fun _ _ => rfl) (fun _ _ => rfl) db2 res db' h3
  simp only [e3, e2, e1, iliRowsOf]

theorem populate_examples {db : DB} {res : LexicalResource} {db' : DB}
    (h : populateBody db res = .ok db') :
    db'.examples = db.examples ++ exampleRowsOf res := by
  obtain ⟨db1, db2, h1, h2, h3⟩ := populateBody_cases h
  have e1 := pass1_pass2_side (fun d => d.examples)
    (fun _ _ => rfl) (fun _ _ => rfl) (fun _ _ => rfl) db res db1 h1
  have e2 := insertAll_proj (fun d => d.examples)
    (fun l => (l.synsets.map (fun s => s.examples.map (exampleRow s.id))).flatten)
    (fun d l d' hd => (pass2_lexicon_shape hd).2.2.2.2) db1 _ db2 h2
  have e3 := pass3_core_side (fun d => d.examples)
    (fun _ _ => rfl) (fun _ _ => rfl) db2 res db' h3
  simp only [e3, e2, e1, exampleRowsOf]

/-! ### Relation rows are present after `populate_database` -/

theorem insert_sense_relation_mono {db : DB} {r : SenseRelRow} {db' : DB}
    (h : insert_sense_relation db r = .ok db') :
    ∀ c ∈ db.sense_relations, c ∈ db'.sense_relations := by
  rcases insert_sense_relation_ok h with rfl | rfl
  · exact fun c hc => hc
  · exact fun c hc => List.mem_append_left _ hc

theorem insert_synset_relation_mono {db : DB} {r : SynsetRelRow} {db' : DB}
    (h : insert_synset_relation db r = .ok db') :
    ∀ c ∈ db.synset_relations, c ∈ db'.synset_relations := by
  rcases insert_synset_relation_ok h with rfl | rfl
  · exact fun c hc => hc
  · exact fun c hc => List.mem_append_left _ hc

theorem pass3_sense_srel_mono {db : DB} {s : Sense} {db' : DB}
    (h : pass3_sense db s = .ok db') :
    ∀ c ∈ db.sense_relations, c ∈ db'.sense_relations :=
  fun c hc => insertAll_preserve (P := fun d => c ∈ d.sense_relations)
    (fun _ _ _ hd hm => insert_sense_relation_mono hd c hm) db _ db' h hc

theorem pass3_entry_srel_mono {db : DB} {e : LexicalEntry} {db' : DB}
    (h : pass3_entry db e = .ok db') :
    ∀ c ∈ db.sense_relations, c ∈ db'.sense_relations :=
  fun c hc => insertAll_preserve (P := fun d => c ∈ d.sense_relations)
    (fun _ _ _ hd hm => pass3_sense_srel_mono hd c hm) db _ db' h hc

theorem pass3_synset_srel_mono {db : DB} {s : Synset} {db' : DB}
    (h : pass3_synset db s = .ok db') :
    ∀ c ∈ db.sense_relations, c ∈ db'.sense_relations :=
  fun c hc => insertAll_preserve (P := fun d => c ∈ d.sense_relations)
    (fun d _ d' hd hm => by
      rcases insert_synset_relation_ok hd with rfl | rfl
      · exact hm
      · exact hm) db _ db' h hc

theorem pass3_lexicon_srel_mono {db : DB} {l : Lexicon} {db' : DB}
    (h : pass3_lexicon db l = .ok db') :
    ∀ c ∈ db.sense_relations, c ∈ db'.sense_relations := by
  unfold pass3_lexicon at h
  cases h0 : insertAll pass3_entry db l.lexical_entries with
  | error err => rw [h0] at h; exact Except.noConfusion h
  | ok db1 =>
    rw [h0] at h
    dsimp only at h
    intro c hc
    have hc1 : c ∈ db1.sense_relations :=
      insertAll_preserve (P := fun d => c ∈ d.sense_relations)
        (fun d _ d' hd hm => pass3_entry_srel_mono hd c hm) db _ db1 h0 hc
    exact insertAll_preserve (P := fun d => c ∈ d.sense_relations)
      (fun d _ d' hd hm => pass3_synset_srel_mono hd c hm) db1 _ db' h hc1

theorem pass3_sense_srel_hit {s : Sense} {r : SenseRelation} (hr : r ∈ s.sense_relations) :
    ∀ db db', pass3_sense db s = .ok db' → senseRelRow s.id r ∈ db'.sense_relations :=
  fun db db' h =>
    insertAll_reach (fun d x => insert_sense_relation d (senseRelRow s.id x))
      (fun d => d.sense_relations)
      (fun _ _ _ hd => insert_sense_relation_mono hd)
      (fun _ _ hd => insert_sense_relation_mem hd) db _ db' hr h

theorem pass3_entry_srel_hit {e : LexicalEntry} {s : Sense} {r : SenseRelation}
    (hs : s ∈ e.senses) (hr : r ∈ s.sense_relations) :
    ∀ db db', pass3_entry db e = .ok db' → senseRelRow s.id r ∈ db'.sense_relations :=
  fun db db' h =>
    insertAll_reach pass3_sense (fun d => d.sense_relations)
      (fun _ _ _ hd => pass3_sense_srel_mono hd)
      (fun _ _ hd => pass3_sense_srel_hit hr _ _ hd) db _ db' hs h

theorem pass3_lexicon_srel_hit {l : Lexicon} {e : LexicalEntry} {s : Sense} {r : SenseRelation}
    (he : e ∈ l.lexical_entries) (hs : s ∈ e.senses) (hr : r ∈ s.sense_relations) :
    ∀ db db', pass3_lexicon db l = .ok db' → senseRelRow s.id r ∈ db'.sense_relations := by
  intro db db' h
  unfold pass3_lexicon at h
  cases h0 : insertAll pass3_entry db l.lexical_entries with
  | error err => rw [h0] at h; exact Except.noConfusion h
  | ok db1 =>
    rw [h0] at h
    dsimp only at h
    have hit1 : senseRelRow s.id r ∈ db1.sense_relations :=
      insertAll_reach pass3_entry (fun d => d.sense_relations)
        (fun _ _ _ hd => pass3_entry_srel_mono hd)
        (fun _ _ hd => pass3_entry_srel_hit hs hr _ _ hd) db _ db1 he h0
    exact insertAll_preserve (P := fun d => senseRelRow s.id r ∈ d.sense_relations)
      (fun d _ d' hd hm => pass3_synset_srel_mono hd _ hm) db1 _ db' h hit1

/-- Every sense relation of the resource has its row in the store after a
successful `populate_database`. -/
theorem populate_sense_relations_mem {db : DB} {res : LexicalResource} {db' : DB}
    (h : populateBody db res = .ok db')
    {l : Lexicon} {e : LexicalEntry} {s : Sense} {r : SenseRelation}
    (hl : l ∈ res.lexicons) (he : e ∈ l.lexical_entries) (hs : s ∈ e.senses)
    (hr : r ∈ s.sense_relations) :
    senseRelRow s.id r ∈ db'.sense_relations := by
  obtain ⟨db1, db2, h1, h2, h3⟩ := populateBody_cases h
  exact insertAll_reach pass3_lexicon (fun d => d.sense_relations)
    (fun _ _ _ hd => pass3_lexicon_srel_mono hd)
    (fun _ _ hd => pass3_lexicon_srel_hit he hs hr _ _ hd) db2 _ db' hl h3

theorem pass3_sense_yrel_mono {db : DB} {s : Sense} {db' : DB}
    (h : pass3_sense db s = .ok db') :
    ∀ c ∈ db.synset_relations, c ∈ db'.synset_relations :=
  fun c hc => insertAll_preserve (P := fun d => c ∈ d.synset_relations)
    (fun d _ d' hd hm => by
      rcases insert_sense_relation_ok hd with rfl | rfl
      · exact hm
      · exact hm) db _ db' h hc

theorem pass3_entry_yrel_mono {db : DB} {e : LexicalEntry} {db' : DB}
    (h : pass3_entry db e = .ok db') :
    ∀ c ∈ db.synset_relations, c ∈ db'.synset_relations :=
  fun c hc => insertAll_preserve (P := fun d => c ∈ d.synset_relations)
    (fun _ _ _ hd hm => pass3_sense_yrel_mono hd c hm) db _ db' h hc

theorem pass3_synset_yrel_mono {db : DB} {s : Synset} {db' : DB}
    (h : pass3_synset db s = .ok db') :
    ∀ c ∈ db.synset_relations, c ∈ db'.synset_relations :=
  fun c hc => insertAll_preserve (P := fun d => c ∈ d.synset_relations)
    (fun _ _ _ hd hm => insert_synset_relation_mono hd c hm) db _ db' h hc

theorem pass3_synset_yrel_hit {s : Synset} {r : SynsetRelation} (hr : r ∈ s.synset_relations) :
    ∀ db db', pass3_synset db s = .ok db' → synsetRelRow s.id r ∈ db'.synset_relations :=
  fun db db' h =>
    insertAll_reach (fun d x => insert_synset_relation d (synsetRelRow s.id x))
      (fun d => d.synset_relations)
      (fun _ _ _ hd => insert_synset_relation_mono hd)
      (fun _ _ hd => insert_synset_relation_mem hd) db _ db' hr h

theorem pass3_lexicon_yrel_mono {db : DB} {l : Lexicon} {db' : DB}
    (h : pass3_lexicon db l = .ok db') :
    ∀ c ∈ db.synset_relations, c ∈ db'.synset_relations := by
  unfold pass3_lexicon at h
  cases h0 : insertAll pass3_entry db l.lexical_entries with
  | error err => rw [h0] at h; exact Except.noConfusion h
  | ok db1 =>
    rw [h0] at h
    dsimp only at h
    intro c hc
    have hc1 : c ∈ db1.synset_relations :=
      insertAll_preserve (P := fun d => c ∈ d.synset_relations)
        (fun d _ d' hd hm => pass3_entry_yrel_mono hd c hm) db _ db1 h0 hc
    exact insertAll_preserve (P := fun d => c ∈ d.synset_relations)
      (fun d _ d' hd hm => pass3_synset_yrel_mono hd c hm) db1 _ db' h hc1

theorem pass3_lexicon_yrel_hit {l : Lexicon} {s : Synset} {r : SynsetRelation}
    (hs : s ∈ l.synsets) (hr : r ∈ s.synset_relations) :
    ∀ db db', pass3_lexicon db l = .ok db' → synsetRelRow s.id r ∈ db'.synset_relations := by
  intro db db' h
  unfold pass3_lexicon at h
  cases h0 : insertAll pass3_entry db l.lexical_entries with
  | error err => rw [h0] at h; exact Except.noConfusion h
  | ok db1 =>
    rw [h0] at h
    dsimp only at h
    exact insertAll_reach pass3_synset (fun d => d.synset_relations)
      (fun _ _ _ hd => pass3_synset_yrel_mono hd)
      (fun _ _ hd => pass3_synset_yrel_hit hr _ _ hd) db1 _ db' hs h

/-- Every synset relation of the resource has its row in the store after a
successful `populate_database`. -/
theorem populate_synset_relations_mem {db : DB} {res : LexicalResource} {db' : DB}
    (h : populateBody db res = .ok db')
    {l : Lexicon} {s : Synset} {r : SynsetRelation}
    (hl : l ∈ res.lexicons) (hs : s ∈ l.synsets) (hr : r ∈ s.synset_relations) :
    synsetRelRow s.id r ∈ db'.synset_relations := by
  obtain ⟨db1, db2, h1, h2, h3⟩ := populateBody_cases h
  exact insertAll_reach pass3_lexicon (fun d => d.synset_relations)
    (fun _ _ _ hd => pass3_lexicon_yrel_mono hd)
    (fun _ _ hd => pass3_lexicon_yrel_hit hs hr _ _ hd) db2 _ db' hl h3

/-! ### Uniqueness of entry ids after population -/

/-- The primary key of the `lexical_entries` table. -/
def EntryIdsNodup (db : DB) : Prop :=
  (db.lexical_entries.map (fun r => r.id)).Nodup

theorem insert_entry_nodup {db : DB} {r : EntryRow} {db' : DB}
    (h : insert_entry db r = .ok db') (hn : EntryIdsNodup db) : EntryIdsNodup db' := by
  unfold insert_entry at h
  split at h
  · exact Except.noConfusion h
  next hany =>
    injection h with h
    subst h
    have hnot : ∀ x ∈ db.lexical_entries, x.id ≠ r.id := by
      intro x hx heq
      exact hany (List.any_eq_true.mpr ⟨x, hx, by simp [heq]⟩)
    unfold EntryIdsNodup at hn ⊢
    simp only [List.map_append, List.map_cons, List.map_nil]
    refine List.Nodup.append hn (List.nodup_singleton _) ?_
    intro a ha hb
    simp only [List.mem_singleton] at hb
    subst hb
    obtain ⟨x, hx, hxi⟩ := List.mem_map.mp ha
    exact hnot x hx hxi

theorem pass1_nodup {db : DB} {res : LexicalResource} {db' : DB}
    (h : pass1 db res = .ok db') (hn : EntryIdsNodup db) : EntryIdsNodup db' := by
  refine insertAll_preserve (P := EntryIdsNodup) ?_ db _ db' h hn
  intro d l d' hd hP
  unfold pass1_lexicon at hd
  cases h0 : insert_lexicon d (lexiconRow l) with
  | error e => rw [h0] at hd; exact Except.noConfusion hd
  | ok d1 =>
    rw [h0] at hd
    dsimp only at hd
    cases hA : insertAll (fun d2 e => insert_entry d2 (entryRow l.id e)) d1 l.lexical_entries with
    | error e => rw [hA] at hd; exact Except.noConfusion hd
    | ok d2 =>
      rw [hA] at hd
      dsimp only at hd
      have hP1 : EntryIdsNodup d1 := by
        unfold EntryIdsNodup at hP ⊢
        rw [insert_lexicon_ok h0]
        exact hP
      have hP2 : EntryIdsNodup d2 :=
        insertAll_preserve (P := EntryIdsNodup)
          (fun d3 x d3' hd3 hP3 => insert_entry_nodup hd3 hP3) d1 _ d2 hA hP1
      unfold EntryIdsNodup at hP2 ⊢
      rw [insertAll_proj_eq (fun d3 => d3.lexical_entries)
        (fun d3 x d3' hd3 => by rw [insert_synset_ok hd3]) d2 _ d' hd]
      exact hP2

/-- After a successful population the entry ids are pairwise distinct
(primary key of `lexical_entries`). -/
theorem populate_entry_ids_nodup {db : DB} {res : LexicalResource} {db' : DB}
    (h : populateBody db res = .ok db') (hn : EntryIdsNodup db) : EntryIdsNodup db' := by
  obtain ⟨db1, db2, h1, h2, h3⟩ := populateBody_cases h
  have n1 := pass1_nodup h1 hn
  have e2 := pass2_pass1_side (fun d => d.lexical_entries)
    (fun _ _ => rfl) (fun _ _ => rfl) (fun _ _ => rfl) (fun _ _ => rfl) (fun _ _ => rfl)
    db1 res db2 h2
  have e3 := pass3_core_side (fun d => d.lexical_entries)
    (fun _ _ => rfl) (fun _ _ => rfl) db2 res db' h3
  unfold EntryIdsNodup at n1 ⊢
  dsimp only at e2 e3
  rw [e3, e2]
  exact n1

/-! ### Round trips and row membership helpers -/

theorem pos_roundtrip (p : PartOfSpeech) :
    string_to_part_of_speech (part_of_speech_to_string p) = .ok p := by
  cases p <;> rfl

theorem mem_entryRowsOf {res : LexicalResource} {r : EntryRow} :
    r ∈ entryRowsOf res ↔
      ∃ l, l ∈ res.lexicons ∧ ∃ e, e ∈ l.lexical_entries ∧ r = entryRow l.id e := by
  simp only [entryRowsOf, List.mem_flatten, List.mem_map]
  constructor
  · rintro ⟨ys, ⟨l, hl, rfl⟩, hin⟩
    obtain ⟨e, he, rfl⟩ := List.mem_map.mp hin
    exact ⟨l, hl, e, he, rfl⟩
  · rintro ⟨l, hl, e, he, rfl⟩
    exact ⟨_, ⟨l, hl, rfl⟩, List.mem_map_of_mem _ he⟩

/-! ## Concrete fixtures used by the witnesses -/

/-- Sense `s1` of entry `w1`, targeting synset `syn1`. -/
def sense_s1 : Sense := { id := "s1", synset := "syn1", sense_relations := [] }

/-- Sense `s2` of entry `w1`, targeting synset `syn2`. -/
def sense_s2 : Sense := { id := "s2", synset := "syn2", sense_relations := [] }

/-- Entry `w1` ("Cat", noun) whose two senses target two different synsets. -/
def entry_w1 : LexicalEntry :=
  { id := "w1", lem := { written_form := "Cat", part_of_speech := .N },
    pronunciations := [], senses := [sense_s1, sense_s2] }

/-- Synset `syn1`, listing `w1` among its members, with a hypernym edge to
`syn2`. -/
def synset1 : Synset :=
  { id := "syn1", ili := none, part_of_speech := .N, members := "w1",
    definitions := [], ili_definition := none,
    synset_relations := [{ rel_type := .Hypernym, target := "syn2" }], examples := [] }

/-- Synset `syn2`, also listing `w1` among its members. -/
def synset2 : Synset :=
  { id := "syn2", ili := none, part_of_speech := .N, members := "w1",
    definitions := [], ili_definition := none, synset_relations := [], examples := [] }

/-- A one-lexicon corpus with the entities above. -/
def lex1 : Lexicon :=
  { id := "lex1", label := "L", language := "en", email := "e", license := "lic",
    version := "1", url := none, citation := none, logo := none, status := none,
    dc_publisher := none, dc_contributor := none,
    lexical_entries := [entry_w1], synsets := [synset1, synset2] }

/-- The witness resource. -/
def res1 : LexicalResource := { lexicons := [lex1] }

/-- The store produced by populating `res1` into an empty database. -/
def db1 : DB :=
  { lexicons := [lexiconRow lex1],
    lexical_entries := [{ id := "w1", lexicon_id := "lex1", lemma_written_form := "Cat",
                          lemma_written_form_lower := "cat", part_of_speech := "n" }],
    pronunciations := [],
    synsets := [{ id := "syn1", lexicon_id := "lex1", ili := none, part_of_speech := "n" },
                { id := "syn2", lexicon_id := "lex1", ili := none, part_of_speech := "n" }],
    senses := [{ id := "s1", entry_id := "w1", synset_id := "syn1" },
               { id := "s2", entry_id := "w1", synset_id := "syn2" }],
    definitions := [], ili_definitions := [], examples := [],
    sense_relations := [],
    synset_relations := [{ source_synset_id := "syn1", target_synset_id := "syn2",
                           rel_type := "hypernym" }] }

theorem populate_res1 : populateBody emptyDB res1 = .ok db1 := by decide

/-- A resource with a duplicated entry id, which violates the primary key of
`lexical_entries` during pass 1. -/
def resDup : LexicalResource :=
  { lexicons := [{ id := "lexD", label := "L", language := "en", email := "e",
                   license := "lic", version := "1", url := none, citation := none,
                   logo := none, status := none, dc_publisher := none,
                   dc_contributor := none,
                   lexical_entries :=
                     [{ id := "w1", lem := { written_form := "a", part_of_speech := .N },
                        pronunciations := [], senses := [] },
                      { id := "w1", lem := { written_form := "b", part_of_speech := .V },
                        pronunciations := [], senses := [] }],
                   synsets := [] }] }

/-- A store holding a relation row with the catch-all kind string, for the C5
retrieval witness. -/
def dbRel : DB :=
  { lexicons := [],
    lexical_entries := [],
    pronunciations := [],
    synsets := [],
    senses := [{ id := "b1", entry_id := "w", synset_id := "syn" }],
    definitions := [], ili_definitions := [], examples := [],
    sense_relations := [{ source_sense_id := "a1", target_sense_id := "b1",
                          rel_type := "other" }],
    synset_relations := [] }

/-! ## Claim C1 -/

/-- C1: for every store and synset id, `get_senses_for_synset` succeeds and
returns exactly the senses whose recorded target-synset id (the `synset_id`
column of the `senses` table) equals the requested id: every returned sense
targets the requested synset and stems from such a row, and every such row is
represented in the result.  In particular, when an entry's `members`-listed
senses span two synsets, each synset's result contains only the senses
targeting it. -/
theorem C1_get_senses_for_synset_exact (db : DB) (synset_id : String) :
    ∃ l, get_senses_for_synset db synset_id = .ok l ∧
      (∀ s ∈ l, s.synset = synset_id ∧
        ∃ row, row ∈ db.senses ∧ row.id = s.id ∧ row.synset_id = synset_id) ∧
      (∀ row ∈ db.senses, row.synset_id = synset_id → ∃ s, s ∈ l ∧ s.id = row.id) := by
  refine ⟨_, rfl, ?_, ?_⟩
  · intro s hs
    simp only [List.mem_map] at hs
    obtain ⟨row, hrow, rfl⟩ := hs
    have hmem := mem_of_mem_dedupByKey hrow
    rw [List.mem_filter] at hmem
    obtain ⟨hrow2, hbeq⟩ := hmem
    have heq : row.synset_id = synset_id := by simpa using hbeq
    exact ⟨heq, row, hrow2, rfl, heq⟩
  · intro row hrow hsyn
    have hf : row ∈ db.senses.filter (fun r => r.synset_id == synset_id) :=
      List.mem_filter.mpr ⟨hrow, by simp [hsyn]⟩
    obtain ⟨row2, hrow2, hkey⟩ := exists_mem_dedupByKey (k := fun r => r.id) hf
    exact ⟨senseFromRow db row2, List.mem_map_of_mem _ hrow2, by simpa using hkey⟩

/-- C1 witness: in the concrete store `db1`, entry `w1`'s senses span `syn1`
and `syn2`; the membership result of `syn1` targets only `syn1` and contains
the row of `s1`. -/
theorem C1_witness :
    ∃ l, get_senses_for_synset db1 "syn1" = .ok l ∧
      (∀ s ∈ l, s.synset = "syn1" ∧
        ∃ row, row ∈ db1.senses ∧ row.id = s.id ∧ row.synset_id = "syn1") ∧
      (∀ row ∈ db1.senses, row.synset_id = "syn1" → ∃ s, s ∈ l ∧ s.id = row.id) :=
  C1_get_senses_for_synset_exact db1 "syn1"

/-! ## Claim C7 -/

/-- C7: for a sense id (resp. synset id) that never occurs as a relation
source, `get_related_senses` (resp. `get_related_synsets`) returns `Ok` with
the empty list for every relation kind — in particular for ids unknown to the
dataset. -/
theorem C7_unknown_source_empty (db : DB) (sense_id synset_id : String)
    (rt : SenseRelType) (rt2 : SynsetRelType)
    (h1 : ∀ r ∈ db.sense_relations, r.source_sense_id ≠ sense_id)
    (h2 : ∀ r ∈ db.synset_relations, r.source_synset_id ≠ synset_id) :
    get_related_senses db sense_id rt = .ok [] ∧
    get_related_synsets db synset_id rt2 = .ok [] := by
  constructor
  · have hfil : db.sense_relations.filter
        (fun r => r.source_sense_id == sense_id &&
          r.rel_type == sense_rel_type_to_string rt) = [] := by
      rw [List.filter_eq_nil_iff]
      intro r hr
      simp [h1 r hr]
    simp [get_related_senses, hfil, dedupByKey, dedupByKeyAux]
  · have hfil : db.synset_relations.filter
        (fun r => r.source_synset_id == synset_id &&
          r.rel_type == synset_rel_type_to_string rt2) = [] := by
      rw [List.filter_eq_nil_iff]
      intro r hr
      simp [h2 r hr]
    simp [get_related_synsets, hfil, dedupByKey, dedupByKeyAux, mapExcept]

/-- C7 witness: the unknown ids `nope-s` and `nope-y` yield `Ok []` in the
concrete store `db1`. -/
theorem C7_witness :
    get_related_senses db1 "nope-s" SenseRelType.Antonym = .ok [] ∧
    get_related_synsets db1 "nope-y" SynsetRelType.Hypernym = .ok [] :=
  C7_unknown_source_empty db1 "nope-s" "nope-y" SenseRelType.Antonym SynsetRelType.Hypernym
    (by decide) (by decide)

/-! ## Claim C8 -/

/-- C8: when no entry row matches the case-folded lemma (and the optional
part-of-speech filter), `lookup_entries` returns `Ok` with the empty list, not
an error. -/
theorem C8_lookup_no_match_empty (db : DB) (q : String) (pf : Option PartOfSpeech)
    (h : ∀ e ∈ db.lexical_entries,
      ¬ (e.lemma_written_form_lower = rustLower q ∧
         (pf = none ∨ pf.map part_of_speech_to_string = some e.part_of_speech))) :
    lookup_entries db q pf = .ok [] := by
  have hfil : db.lexical_entries.filter
      (lookupMatches (rustLower q) (pf.map part_of_speech_to_string)) = [] := by
    rw [List.filter_eq_nil_iff]
    intro e he
    have he' := h e he
    unfold lookupMatches
    cases hpf : pf with
    | none =>
      rw [hpf] at he'
      simp only [Option.map_none']
      simp
      exact fun hA => he' ⟨hA, by simp⟩
    | some p =>
      rw [hpf] at he'
      simp only [Option.map_some']
      simp
      intro heq hpos
      exact he' ⟨heq, Or.inr (by simp [hpos])⟩
  simp [lookup_entries, hfil, dedupByKey, dedupByKeyAux, mapExcept]

/-- C8 witness: the lemma "definitely-absent" matches nothing in `db1`, with
and without a part-of-speech filter. -/
theorem C8_witness :
    lookup_entries db1 "definitely-absent" none = .ok [] ∧
    lookup_entries db1 "definitely-absent" (some PartOfSpeech.V) = .ok [] :=
  ⟨C8_lookup_no_match_empty db1 "definitely-absent" none (by decide),
   C8_lookup_no_match_empty db1 "definitely-absent" (some PartOfSpeech.V) (by decide)⟩

/-! ## Claim C10 -/

theorem materializeSynset_members {db : DB} {r : SynsetRow} {s : Synset}
    (h : materializeSynset db r = .ok s) : s.members = "" := by
  unfold materializeSynset at h
  cases hp : string_to_part_of_speech r.part_of_speech with
  | error e => rw [hp] at h; exact Except.noConfusion h
  | ok pos =>
    rw [hp] at h
    dsimp only at h
    injection h with h
    subst h
    rfl

/-- C10: every `Synset` returned by `get_synset`, and every target `Synset`
returned by `get_related_synsets`, carries the empty string in its `members`
field — the attribute is not persisted (the `synsets` table has no `members`
column) and is not reconstructed, even when the synset has member senses. -/
theorem C10_members_always_empty (db : DB) (sid qid : String) (rt : SynsetRelType)
    (s : Synset) (l : List Synset)
    (h1 : get_synset db sid = .ok s)
    (h2 : get_related_synsets db qid rt = .ok l) :
    s.members = "" ∧ ∀ t ∈ l, t.members = "" := by
  constructor
  · unfold get_synset at h1
    cases hf : fetch_full_synset_by_id db sid with
    | error e => rw [hf] at h1; exact Except.noConfusion h1
    | ok o =>
      rw [hf] at h1
      cases o with
      | none => exact Except.noConfusion h1
      | some s0 =>
        dsimp only at h1
        injection h1 with h1
        subst h1
        unfold fetch_full_synset_by_id at hf
        cases hfind : db.synsets.find? (fun r => r.id == sid) with
        | none =>
          rw [hfind] at hf
          dsimp only at hf
          injection hf with hf
          exact Option.noConfusion hf
        | some r =>
          rw [hfind] at hf
          dsimp only at hf
          cases hm : materializeSynset db r with
          | error e => rw [hm] at hf; exact Except.noConfusion hf
          | ok s1 =>
            rw [hm] at hf
            dsimp only at hf
            injection hf with hf
            injection hf with hf
            subst hf
            exact materializeSynset_members hm
  · intro t ht
    simp only [get_related_synsets] at h2
    obtain ⟨row, _, hm⟩ := mapExcept_mem_source h2 ht
    exact materializeSynset_members hm

/-- The `Synset` value `db1` returns for `syn1`. -/
def synsetA : Synset :=
  { id := "syn1", ili := none, part_of_speech := .N, members := "",
    definitions := [], ili_definition := none,
    synset_relations := [{ rel_type := .Hypernym, target := "syn2" }], examples := [] }

/-- The `Synset` value `db1` returns as the hypernym target of `syn1`. -/
def synsetB : Synset :=
  { id := "syn2", ili := none, part_of_speech := .N, members := "",
    definitions := [], ili_definition := none, synset_relations := [], examples := [] }

/-- C10 witness: in `db1` the synset `syn1` has two member senses, and both
the `get_synset` result and the `get_related_synsets` target carry an empty
`members` string. -/
theorem C10_witness :
    synsetA.members = "" ∧ ∀ t ∈ [synsetB], t.members = "" :=
  C10_members_always_empty db1 "syn1" "syn1" SynsetRelType.Hypernym synsetA [synsetB]
    (by decide) (by decide)

/-! ## Claim C4 -/

/-- C4 counterexample: `get_sense` on a missing id returns the generic
`OewnError.Internal` error (with the id only inside the message text), not a
NotFound-style variant — refuting the claim that both `get_synset` and
`get_sense` return a dedicated NotFound-style error. -/
theorem C4_counterexample :
    get_sense emptyDB "oewn-missing" =
      .error (OewnError.Internal "Sense ID not found: oewn-missing") ∧
    specNotFoundStyle (OewnError.Internal "Sense ID not found: oewn-missing") = false := by
  decide

/-- C4 (amended): on a missing id, `get_synset` returns the dedicated
`SynsetNotFound` error naming the id (NotFound-style, non-fatal, no panic),
while `get_sense` returns the generic `Internal` error whose message names
the id — not a NotFound-style variant, not a silent default. -/
theorem C4_amended_missing_id_errors (db : DB) (sid tid : String)
    (hsy : ∀ r ∈ db.synsets, r.id ≠ sid)
    (hse : ∀ r ∈ db.senses, r.id ≠ tid) :
    get_synset db sid = .error (.SynsetNotFound sid) ∧
    specNotFoundStyle (.SynsetNotFound sid) = true ∧
    get_sense db tid = .error (.Internal ("Sense ID not found: " ++ tid)) ∧
    specNotFoundStyle (.Internal ("Sense ID not found: " ++ tid)) = false := by
  have hfy : db.synsets.find? (fun r => r.id == sid) = none := by
    rw [List.find?_eq_none]
    intro r hr
    simp [hsy r hr]
  have hfe : db.senses.find? (fun r => r.id == tid) = none := by
    rw [List.find?_eq_none]
    intro r hr
    simp [hse r hr]
  refine ⟨?_, rfl, ?_, rfl⟩
  · unfold get_synset fetch_full_synset_by_id
    rw [hfy]
  · unfold get_sense fetch_full_sense_by_id
    rw [hfe]
    rfl

/-- C4 witness: concrete missing ids in the empty store. -/
theorem C4_witness :
    get_synset emptyDB "syn-x" = .error (.SynsetNotFound "syn-x") ∧
    specNotFoundStyle (.SynsetNotFound "syn-x") = true ∧
    get_sense emptyDB "s-x" = .error (.Internal ("Sense ID not found: " ++ "s-x")) ∧
    specNotFoundStyle (.Internal ("Sense ID not found: " ++ "s-x")) = false :=
  C4_amended_missing_id_errors emptyDB "syn-x" "s-x" (by decide) (by decide)

/-! ## Claim C3 -/

/-- C3 counterexample: a stored schema version `"2"` differs from the expected
`"1"`, the database file exists, no forced reload was requested and the
`lexicons` table is non-empty (5 rows): `initialize_database`'s version check
keeps the data (and even keeps the newer version string), and
`load_with_options` decides that no repopulation is needed — the persisted
state is read under the mismatched version instead of being discarded. -/
theorem C3_counterexample :
    ("2" ≠ toString SCHEMA_VERSION) ∧
    schema_version_check (some "2") =
      .ok { new_stored := "2", data_discarded := false } ∧
    load_needs_population true false 5 = false := by
  decide

/-- C3 (amended): the version check never discards the persisted data — an
older stored version merely has the metadata row overwritten with the
expected number, a newer one is kept and used — and the load-time population
decision ignores the schema version entirely: it rebuilds exactly when the
database file is missing, a forced reload was requested, or the `lexicons`
table is empty. -/
theorem C3_amended_version_never_discards (stored : Option String)
    (r : VersionCheckResult) (e f : Bool) (c : Nat)
    (h : schema_version_check stored = .ok r) :
    r.data_discarded = false ∧
    (load_needs_population e f c = true ↔ (e = false ∨ f = true ∨ c = 0)) := by
  constructor
  · unfold schema_version_check at h
    cases stored with
    | none => injection h with h; subst h; rfl
    | some v_str =>
      dsimp only at h
      cases hp : parseNat? v_str with
      | none => rw [hp] at h; exact Except.noConfusion h
      | some v =>
        rw [hp] at h
        dsimp only at h
        split at h <;> (injection h with h; subst h; rfl)
  · unfold load_needs_population
    cases e <;> cases f <;> simp [Nat.beq_eq_true_eq]

/-- C3 witness: the counterexample configuration, through the amended
theorem. -/
theorem C3_witness :
    ({ new_stored := "2", data_discarded := false } : VersionCheckResult).data_discarded
        = false ∧
    (load_needs_population true false 5 = true ↔ (true = false ∨ false = true ∨ 5 = 0)) :=
  C3_amended_version_never_discards (some "2")
    { new_stored := "2", data_discarded := false } true false 5 (by decide)

/-! ## Claim C5 -/

/-- The relation-kind strings recognised by `string_to_sense_rel_type`. -/
def knownSenseRelStrings : List String :=
  ["antonym", "also", "participle", "pertainym", "derivation", "domain_topic",
   "domain_member_topic", "domain_region", "domain_member_region", "exemplifies",
   "is_exemplified_by"]

/-- The relation-kind strings recognised by `string_to_synset_rel_type`. -/
def knownSynsetRelStrings : List String :=
  ["hypernym", "hyponym", "instance_hypernym", "instance_hyponym", "mero_member",
   "mero_part", "mero_substance", "holo_member", "holo_part", "holo_substance",
   "entails", "causes", "similar", "attribute", "domain_region", "domain_topic",
   "has_domain_region", "has_domain_topic", "exemplifies", "is_exemplified_by"]

theorem senseRelOfString_unknown {s : String} (hs : s ∉ knownSenseRelStrings) :
    senseRelOfString s = SenseRelType.Other := by
  simp only [knownSenseRelStrings, List.mem_cons, List.not_mem_nil, or_false, not_or] at hs
  obtain ⟨h1, h2, h3, h4, h5, h6, h7, h8, h9, h10, h11⟩ := hs
  simp [senseRelOfString, h1, h2, h3, h4, h5, h6, h7, h8, h9, h10, h11]

theorem sense_rel_type_from_xml_unknown {s : String} (hs : s ∉ knownSenseRelStrings) :
    sense_rel_type_from_xml s = SenseRelType.Other := by
  simp only [knownSenseRelStrings, List.mem_cons, List.not_mem_nil, or_false, not_or] at hs
  obtain ⟨h1, h2, h3, h4, h5, h6, h7, h8, h9, h10, h11⟩ := hs
  simp [sense_rel_type_from_xml, h1, h2, h3, h4, h5, h6, h7, h8, h9, h10, h11]

theorem synsetRelOfString_unknown {t : String} (ht : t ∉ knownSynsetRelStrings) :
    synsetRelOfString t = SynsetRelType.Unknown := by
  simp only [knownSynsetRelStrings, List.mem_cons, List.not_mem_nil, or_false, not_or] at ht
  obtain ⟨h1, h2, h3, h4, h5, h6, h7, h8, h9, h10, h11, h12, h13, h14, h15,
    h16, h17, h18, h19, h20⟩ := ht
  simp [synsetRelOfString, h1, h2, h3, h4, h5, h6, h7, h8, h9, h10, h11, h12,
    h13, h14, h15, h16, h17, h18, h19, h20]

/-- C5 counterexample: the unrecognized source relation text `"foo"` decodes
to the catch-all `Other`; what is stored is the catch-all's own name
`"other"`, which is not the original text, and retrieval decodes the stored
string back only to the catch-all variant — the original source relation text
does **not** round-trip losslessly through storage and retrieval. -/
theorem C5_counterexample :
    sense_rel_type_from_xml "foo" = SenseRelType.Other ∧
    sense_rel_type_to_string (sense_rel_type_from_xml "foo") = "other" ∧
    ("other" : String) ≠ "foo" ∧
    string_to_sense_rel_type (sense_rel_type_to_string (sense_rel_type_from_xml "foo")) =
      .ok SenseRelType.Other := by
  decide

/-- C5 (amended): every relation-kind string outside the known enumeration
decodes — both at XML deserialization and at store retrieval — to the
designated catch-all (`SenseRelType.Other` / `SynsetRelType.Unknown`) without
failing; the relation row is stored regardless of its kind string (the insert
always succeeds and the row is present afterwards); and a stored catch-all
relation is indexed: `get_related_senses` with `Other` finds its target.  The
original unrecognized text, however, is not preserved (see the
counterexample), so the claim's lossless round-trip does not hold. -/
theorem C5_amended_catchall (s t : String) (db : DB) (row : SenseRelRow)
    (a b : String) (srow : SenseRow)
    (hs : s ∉ knownSenseRelStrings) (ht : t ∉ knownSynsetRelStrings)
    (hrel : SenseRelRow.mk a b "other" ∈ db.sense_relations)
    (hsrow : srow ∈ db.senses) (hb : srow.id = b) :
    string_to_sense_rel_type s = .ok SenseRelType.Other ∧
    sense_rel_type_from_xml s = SenseRelType.Other ∧
    string_to_synset_rel_type t = .ok SynsetRelType.Unknown ∧
    (∃ db2, insert_sense_relation db row = .ok db2 ∧ row ∈ db2.sense_relations) ∧
    (∃ l, get_related_senses db a SenseRelType.Other = .ok l ∧ ∃ x ∈ l, x.id = b) := by
  refine ⟨?_, sense_rel_type_from_xml_unknown hs, ?_, ?_, ?_⟩
  · unfold string_to_sense_rel_type
    rw [senseRelOfString_unknown hs]
  · unfold string_to_synset_rel_type
    rw [synsetRelOfString_unknown ht]
  · by_cases hmem : row ∈ db.sense_relations
    · exact ⟨db, by simp [insert_sense_relation, hmem], hmem⟩
    · exact ⟨{ db with sense_relations := db.sense_relations ++ [row] },
        by simp [insert_sense_relation, hmem], by simp⟩
  · refine ⟨_, rfl, ?_⟩
    have hrelmem : SenseRelRow.mk a b "other" ∈
        db.sense_relations.filter (fun r => r.source_sense_id == a &&
          r.rel_type == sense_rel_type_to_string SenseRelType.Other) := by
      refine List.mem_filter.mpr ⟨hrel, ?_⟩
      simp [sense_rel_type_to_string]
    have hsome : (db.senses.find? (fun s0 => s0.id == b)).isSome := by
      rw [List.find?_isSome]
      exact ⟨srow, hsrow, by simp [hb]⟩
    obtain ⟨y, hy⟩ := Option.isSome_iff_exists.mp hsome
    have hyid : y.id = b := by simpa using List.find?_some hy
    have hymem : y ∈ (db.sense_relations.filter (fun r => r.source_sense_id == a &&
        r.rel_type == sense_rel_type_to_string SenseRelType.Other)).filterMap
          (fun r => db.senses.find? (fun s0 => s0.id == r.target_sense_id)) := by
      rw [List.mem_filterMap]
      exact ⟨SenseRelRow.mk a b "other", hrelmem, hy⟩
    obtain ⟨y2, hy2, hkey⟩ := exists_mem_dedupByKey (k := fun r => r.id) hymem
    refine ⟨senseFromRow db y2, List.mem_map_of_mem _ hy2, ?_⟩
    show y2.id = b
    rw [← hyid]
    simpa using hkey

/-- A relation row of an arbitrary unknown kind, for the C5 witness. -/
def rowWeird : SenseRelRow :=
  { source_sense_id := "x", target_sense_id := "y", rel_type := "weird" }

/-- The target sense row of `dbRel`, for the C5 witness. -/
def srowB1 : SenseRow := { id := "b1", entry_id := "w", synset_id := "syn" }

/-- C5 witness: the unknown strings `"foo"`/`"bar"`, an arbitrary-kind row
accepted by the insert, and a stored `"other"`-kind relation retrieved by
`get_related_senses` in the concrete store `dbRel`. -/
theorem C5_witness :
    string_to_sense_rel_type "foo" = .ok SenseRelType.Other ∧
    sense_rel_type_from_xml "foo" = SenseRelType.Other ∧
    string_to_synset_rel_type "bar" = .ok SynsetRelType.Unknown ∧
    (∃ db2, insert_sense_relation dbRel rowWeird = .ok db2 ∧
      rowWeird ∈ db2.sense_relations) ∧
    (∃ l, get_related_senses dbRel "a1" SenseRelType.Other = .ok l ∧ ∃ x ∈ l, x.id = "b1") :=
  C5_amended_catchall "foo" "bar" dbRel rowWeird "a1" "b1" srowB1
    (by decide) (by decide) (by decide) (by decide) (by decide)

/-! ## Claim C2 -/

theorem materializeEntry_ok_of_pos {db : DB} {r : EntryRow} {p : PartOfSpeech}
    (hp : string_to_part_of_speech r.part_of_speech = .ok p) :
    materializeEntry db r = .ok
      { id := r.id,
        lem := { written_form := r.lemma_written_form, part_of_speech := p },
        pronunciations :=
          (db.pronunciations.filter (fun x => x.entry_id == r.id)).map pronFromRow,
        senses :=
          (dedupByKey (fun s => s.id)
            (db.senses.filter (fun s => s.entry_id == r.id))).map (senseFromRow db) } := by
  unfold materializeEntry
  rw [hp]

/-- C2: after populating an empty store from a resource, every entry `E` of
the resource is found by `lookup_entries` under any query string whose
case-folding equals the case-folding of `E`'s written form (e.g. any casing
of the lemma), both with the matching part-of-speech filter and with no
filter: the call succeeds and its result contains an entry with `E`'s id and
`E`'s lemma. -/
theorem C2_lookup_finds_entry (res : LexicalResource) (db : DB) (lex : Lexicon)
    (E : LexicalEntry) (q : String) (pf : Option PartOfSpeech)
    (hpop : populateBody emptyDB res = .ok db)
    (hlex : lex ∈ res.lexicons) (hE : E ∈ lex.lexical_entries)
    (hq : rustLower q = rustLower E.lem.written_form)
    (hpf : pf = none ∨ pf = some E.lem.part_of_speech) :
    ∃ l, lookup_entries db q pf = .ok l ∧
      ∃ e, e ∈ l ∧ e.id = E.id ∧ e.lem = E.lem := by
  have hrows : db.lexical_entries = entryRowsOf res := by
    have := populate_lexical_entries hpop
    simpa [emptyDB] using this
  have hnd : EntryIdsNodup db :=
    populate_entry_ids_nodup hpop (by simp [EntryIdsNodup, emptyDB])
  set er := entryRow lex.id E with her_def
  have her : er ∈ db.lexical_entries := by
    rw [hrows]
    exact mem_entryRowsOf.mpr ⟨lex, hlex, E, hE, rfl⟩
  have hmatch : lookupMatches (rustLower q) (pf.map part_of_speech_to_string) er = true := by
    unfold lookupMatches
    have hlow : er.lemma_written_form_lower = rustLower q := by
      rw [her_def]
      unfold entryRow
      dsimp only
      exact hq.symm
    rcases hpf with rfl | rfl
    · simp [hlow]
    · simp only [Option.map_some']
      have hpos : er.part_of_speech = part_of_speech_to_string E.lem.part_of_speech := by
        rw [her_def]; rfl
      simp [hlow, hpos]
  have hfil : er ∈ db.lexical_entries.filter
      (lookupMatches (rustLower q) (pf.map part_of_speech_to_string)) :=
    List.mem_filter.mpr ⟨her, hmatch⟩
  obtain ⟨er2, her2, hkey⟩ := exists_mem_dedupByKey (k := fun e => e.id) hfil
  have her2mem : er2 ∈ db.lexical_entries :=
    List.mem_filter.mp (mem_of_mem_dedupByKey her2) |>.1
  have her2eq : er2 = er := by
    apply List.inj_on_of_nodup_map hnd her2mem her
    simpa using hkey
  have hall : ∀ x ∈ dedupByKey (fun e => e.id)
      (db.lexical_entries.filter
        (lookupMatches (rustLower q) (pf.map part_of_speech_to_string))),
      ∃ y, materializeEntry db x = .ok y := by
    intro x hx
    have hxmem : x ∈ db.lexical_entries :=
      (List.mem_filter.mp (mem_of_mem_dedupByKey hx)).1
    rw [hrows] at hxmem
    obtain ⟨l0, _, e0, _, rfl⟩ := mem_entryRowsOf.mp hxmem
    exact ⟨_, materializeEntry_ok_of_pos (pos_roundtrip e0.lem.part_of_speech)⟩
  obtain ⟨l, hl, hmem⟩ := mapExcept_ok_of_forall hall
  refine ⟨l, hl, ?_⟩
  obtain ⟨e, hel, hme⟩ := hmem er2 her2
  rw [her2eq] at hme
  rw [materializeEntry_ok_of_pos (p := E.lem.part_of_speech) (by
    rw [her_def]
    unfold entryRow
    dsimp only
    exact pos_roundtrip E.lem.part_of_speech)] at hme
  injection hme with hme
  refine ⟨e, hel, ?_, ?_⟩
  · rw [← hme, her_def]; rfl
  · rw [← hme, her_def]; rfl

/-- C2 witness: in the store populated from `res1`, the all-uppercase query
"CAT" finds entry `w1` (written form "Cat", noun), with and without the noun
filter. -/
theorem C2_witness :
    (∃ l, lookup_entries db1 "CAT" none = .ok l ∧
      ∃ e, e ∈ l ∧ e.id = "w1" ∧ e.lem = entry_w1.lem) ∧
    (∃ l, lookup_entries db1 "CAT" (some PartOfSpeech.N) = .ok l ∧
      ∃ e, e ∈ l ∧ e.id = "w1" ∧ e.lem = entry_w1.lem) :=
  ⟨C2_lookup_finds_entry res1 db1 lex1 entry_w1 "CAT" none
      populate_res1 (by decide) (by decide) (by decide) (Or.inl rfl),
   C2_lookup_finds_entry res1 db1 lex1 entry_w1 "CAT" (some PartOfSpeech.N)
      populate_res1 (by decide) (by decide) (by decide) (Or.inr (by decide))⟩

/-! ## Claim C6 -/

/-- C6: `populate_database` runs its three passes inside one transaction, in
dependency order (pass 1: lexicons, entries, synsets; pass 2: pronunciations,
senses, definitions, ILI definitions, examples; pass 3: relations), and the
observable store is atomic: on any insertion failure the transaction rolls
back and the store equals the full prior state; on success it equals the full
new state, holding every row of the resource (append-only tables exactly, the
`INSERT OR IGNORE` relation tables by membership). -/
theorem C6_populate_atomic (db : DB) (res : LexicalResource) :
    (∀ err, populateBody db res = .error err → populate_database_result db res = db) ∧
    (∀ db', populateBody db res = .ok db' →
      populate_database_result db res = db' ∧
      db'.lexicons = db.lexicons ++ lexiconRowsOf res ∧
      db'.lexical_entries = db.lexical_entries ++ entryRowsOf res ∧
      db'.synsets = db.synsets ++ synsetRowsOf res ∧
      db'.senses = db.senses ++ senseRowsOf res ∧
      db'.pronunciations = db.pronunciations ++ pronRowsOf res ∧
      db'.definitions = db.definitions ++ defRowsOf res ∧
      db'.ili_definitions = db.ili_definitions ++ iliRowsOf res ∧
      db'.examples = db.examples ++ exampleRowsOf res ∧
      (∀ l ∈ res.lexicons, ∀ e ∈ l.lexical_entries, ∀ s ∈ e.senses,
        ∀ r ∈ s.sense_relations, senseRelRow s.id r ∈ db'.sense_relations) ∧
      (∀ l ∈ res.lexicons, ∀ s ∈ l.synsets,
        ∀ r ∈ s.synset_relations, synsetRelRow s.id r ∈ db'.synset_relations)) := by
  constructor
  · intro err herr
    unfold populate_database_result
    rw [herr]
  · intro db' hok
    refine ⟨?_, populate_lexicons hok, populate_lexical_entries hok, populate_synsets hok,
      populate_senses hok, populate_pronunciations hok, populate_definitions hok,
      populate_ili_definitions hok, populate_examples hok, ?_, ?_⟩
    · unfold populate_database_result
      rw [hok]
    · intro l hl e he s hs r hr
      exact populate_sense_relations_mem hok hl he hs hr
    · intro l hl s hs r hr
      exact populate_synset_relations_mem hok hl hs hr

/-- C6 witness: populating `resDup` (duplicate entry id) fails and leaves the
empty store unchanged; populating `res1` succeeds and the observable store is
exactly `db1`. -/
theorem C6_witness :
    populate_database_result emptyDB resDup = emptyDB ∧
    populate_database_result emptyDB res1 = db1 :=
  ⟨(C6_populate_atomic emptyDB resDup).1
      (.DbError "UNIQUE constraint failed: lexical_entries.id") (by decide),
   ((C6_populate_atomic emptyDB res1).2 db1 populate_res1).1⟩

/-! ## Claim C9 -/

theorem fetch_full_entry_ok_of_mem {db : DB} {eid : String}
    (hwf : ∀ r ∈ db.lexical_entries, ∃ p, string_to_part_of_speech r.part_of_speech = .ok p)
    (hex : ∃ r ∈ db.lexical_entries, r.id = eid) :
    ∃ ent, fetch_full_entry_by_id db eid = .ok (some ent) ∧ ent.id = eid := by
  have hsome : (db.lexical_entries.find? (fun r => r.id == eid)).isSome := by
    rw [List.find?_isSome]
    obtain ⟨r, hr, hid⟩ := hex
    exact ⟨r, hr, by simp [hid]⟩
  obtain ⟨y, hy⟩ := Option.isSome_iff_exists.mp hsome
  have hymem : y ∈ db.lexical_entries := List.mem_of_find?_eq_some hy
  have hyid : y.id = eid := by simpa using List.find?_some hy
  obtain ⟨p, hp⟩ := hwf y hymem
  have hm : materializeEntry db y = _ := materializeEntry_ok_of_pos hp
  refine ⟨{ id := y.id,
            lem := { written_form := y.lemma_written_form, part_of_speech := p },
            pronunciations :=
              (db.pronunciations.filter (fun x => x.entry_id == y.id)).map pronFromRow,
            senses := (dedupByKey (fun s => s.id)
              (db.senses.filter (fun s => s.entry_id == y.id))).map (senseFromRow db) },
    ?_, hyid⟩
  unfold fetch_full_entry_by_id
  rw [hy]
  dsimp only
  rw [hm]

theorem get_random_entry_ok {db : DB} (pick : Nat)
    (hwf : ∀ r ∈ db.lexical_entries, ∃ p, string_to_part_of_speech r.part_of_speech = .ok p)
    {e0 : EntryRow} {rest : List EntryRow} (hlist : db.lexical_entries = e0 :: rest) :
    ∃ ent, get_random_entry db pick = .ok ent ∧
      ent.id = ((e0 :: rest).get
        ⟨pick % (e0 :: rest).length, Nat.mod_lt _ (Nat.succ_pos _)⟩).id := by
  unfold get_random_entry
  rw [hlist]
  dsimp only
  have hex : ∃ r ∈ db.lexical_entries,
      r.id = ((e0 :: rest).get
        ⟨pick % (e0 :: rest).length, Nat.mod_lt _ (Nat.succ_pos _)⟩).id := by
    refine ⟨(e0 :: rest).get
      ⟨pick % (e0 :: rest).length, Nat.mod_lt _ (Nat.succ_pos _)⟩, ?_, rfl⟩
    rw [hlist]
    exact List.get_mem _ _ _
  obtain ⟨ent, hfe, hid⟩ := fetch_full_entry_ok_of_mem hwf hex
  rw [hfe]
  exact ⟨ent, rfl, hid⟩

/-- C9: `get_random_entry` (its `ORDER BY RANDOM() LIMIT 1` oracle modelled
by `pick`) fails — with the "No entries" `Internal` error — exactly when the
entry table is empty; when any entry exists the call succeeds, and every
entry of the population is drawn by some oracle value (the choice ranges over
the full entry-id population). -/
theorem C9_random_entry (db : DB) (pick : Nat)
    (hwf : ∀ r ∈ db.lexical_entries, ∃ p, string_to_part_of_speech r.part_of_speech = .ok p) :
    ((∃ err, get_random_entry db pick = .error err) ↔ db.lexical_entries = []) ∧
    (∀ r ∈ db.lexical_entries, ∃ pk ent, get_random_entry db pk = .ok ent ∧ ent.id = r.id) := by
  constructor
  · constructor
    · rintro ⟨err, herr⟩
      cases hlist : db.lexical_entries with
      | nil => rfl
      | cons e0 rest =>
        obtain ⟨ent, hrand, _⟩ := get_random_entry_ok pick hwf hlist
        rw [hrand] at herr
        exact Except.noConfusion herr
    · intro hempty
      refine ⟨.Internal "No entries found in database.", ?_⟩
      unfold get_random_entry
      rw [hempty]
  · intro r hr
    obtain ⟨⟨i, hi⟩, hget⟩ := List.mem_iff_get.mp hr
    cases hlist : db.lexical_entries with
    | nil => rw [hlist] at hr; cases hr
    | cons e0 rest =>
      obtain ⟨ent, hrand, hid⟩ := get_random_entry_ok i hwf hlist
      refine ⟨i, ent, hrand, ?_⟩
      rw [hid]
      have hi2 : i < (e0 :: rest).length := by rw [← hlist]; exact hi
      have hmod : i % (e0 :: rest).length = i := Nat.mod_eq_of_lt hi2
      have hcast : ((e0 :: rest).get
          ⟨i % (e0 :: rest).length, Nat.mod_lt _ (Nat.succ_pos _)⟩) =
          (e0 :: rest).get ⟨i, hi2⟩ := by
        congr 1
        exact Fin.ext hmod
      rw [hcast]
      have hge := List.get_of_eq hlist ⟨i, hi⟩
      rw [hget] at hge
      rw [← hge]

/-- C9 witness: in the populated store `db1` the single entry `w1` is always
returned, and in the empty store the call fails. -/
theorem C9_witness :
    ((∃ err, get_random_entry db1 0 = .error err) ↔ db1.lexical_entries = []) ∧
    (∀ r ∈ db1.lexical_entries,
      ∃ pk ent, get_random_entry db1 pk = .ok ent ∧ ent.id = r.id) :=
  C9_random_entry db1 0 (by
    intro r hr
    simp only [db1, List.mem_singleton] at hr
    subst hr
    exact ⟨PartOfSpeech.N, by decide⟩)

end OewnRs
